import Mathlib

/-!
# AdminDirectoryUpload

A shallow embedding of `src/AdminDirectoryUpload.jsx`: the React state of the
admin bulk-upload page, the browser-side bookkeeping its handlers create
(pending timeouts, file readers, intervals, issued requests, alerts), and the
event handlers as functions on that state.

Asynchronous handlers are split at their `await` points: the part that runs
synchronously when the handler is called, and the continuation that runs when
the awaited promise settles. The continuation is a function of the page as it
is at that moment, so events may be interleaved between the two.

Modelling conventions
* counts (`uploadedCount`, `deletedCount`, `row`, array lengths, byte sizes)
  are natural numbers below `2^53`, which JavaScript renders in a template
  literal as their decimal numeral;
* a response body that parses is `null` or a value whose fields, when present,
  have the type the endpoint table gives them; a field may be absent, and a
  body that is a number, a string, a boolean or an array has none of the fields
  the handlers read, so it is the value with every field absent;
* the text of an error thrown by the runtime (a rejected `fetch`, a rejected
  `res.json()`, a `TypeError` on a property of `null` or `undefined`) is an
  input.
-/

namespace AdminDirectoryUpload

/-! ## Data model -/

/-- A browser `File`: the three attributes the page reads. -/
structure File where
  name : String
  size : Nat
  type : String
deriving DecidableEq, Repr

/-- The `message` state: `{ text, type }`. -/
structure Message where
  text : String
  type : String
deriving DecidableEq, Repr

/-- One element of the `previewData` state. -/
structure PreviewEntry where
  fileName : String
  fileSize : String
  fileType : String
deriving DecidableEq, Repr

/-- One element of the `uploadHistory` state, with the fields the page renders. -/
structure HistoryEntry where
  originalName : String
  uploadDate : String
  fileType : String
  fileSize : Nat
  status : String
  successfulUploads : Nat
  totalRows : Nat
deriving DecidableEq, Repr

/-- A call of `fetch`: method, path below `API_BASE`, and the file of the form data. -/
structure Request where
  method : String
  path : String
  body : Option File
deriving DecidableEq, Repr

/-- The page: the seven `useState` cells, the file input behind `fileInputRef`,
and what the handlers have handed to the browser. -/
structure Page where
  file : Option File
  uploading : Bool
  message : Message
  uploadProgress : Nat
  previewData : List PreviewEntry
  uploadHistory : List HistoryEntry
  loadingHistory : Bool
  /-- Value of the file input control (`fileInputRef.current.value`). -/
  fileInputValue : String
  /-- Current time in milliseconds. -/
  now : Nat
  /-- Due times of the pending `setTimeout` callbacks of `showMessage`. -/
  timeouts : List Nat
  /-- Files whose `FileReader` has been started and has not fired `onload`. -/
  readers : List File
  /-- Identifiers of the progress intervals that have not been cleared. -/
  intervals : List Nat
  /-- Identifier the next `setInterval` returns. -/
  nextInterval : Nat
  /-- Every `fetch` issued so far, oldest first. -/
  requests : List Request
  /-- Every `alert` raised so far, oldest first. -/
  alerts : List String
deriving DecidableEq, Repr

/-- The page as `useState` initialises it, at time 0. -/
def Page.init : Page where
  file := none
  uploading := false
  message := ⟨"", ""⟩
  uploadProgress := 0
  previewData := []
  uploadHistory := []
  loadingHistory := false
  fileInputValue := ""
  now := 0
  timeouts := []
  readers := []
  intervals := []
  nextInterval := 0
  requests := []
  alerts := []

/-! ## State setters and browser primitives -/

def setFile (f : Option File) (p : Page) : Page := { p with file := f }

def setUploading (b : Bool) (p : Page) : Page := { p with uploading := b }

def setMessage (m : Message) (p : Page) : Page := { p with message := m }

def setUploadProgress (n : Nat) (p : Page) : Page := { p with uploadProgress := n }

def setPreviewData (d : List PreviewEntry) (p : Page) : Page := { p with previewData := d }

def setUploadHistory (h : List HistoryEntry) (p : Page) : Page := { p with uploadHistory := h }

def setLoadingHistory (b : Bool) (p : Page) : Page := { p with loadingHistory := b }

/-- The empty message `{ text: '', type: '' }`. -/
def noMessage : Message := ⟨"", ""⟩

/-- Registers the message-clearing callback, due `ms` milliseconds from now. -/
def setTimeout (ms : Nat) (p : Page) : Page :=
  { p with timeouts := p.timeouts ++ [p.now + ms] }

/-- Records a call of `fetch`. -/
def fetch (r : Request) (p : Page) : Page := { p with requests := p.requests ++ [r] }

/-- Records a call of `alert`. -/
def alert (text : String) (p : Page) : Page := { p with alerts := p.alerts ++ [text] }

/-- Removes interval `id` from the live intervals. -/
def clearInterval (id : Nat) (p : Page) : Page :=
  { p with intervals := p.intervals.filter (fun i => i != id) }

/-- Starts a new interval and returns the page; its identifier is the old `nextInterval`. -/
def setInterval (p : Page) : Page :=
  { p with intervals := p.intervals ++ [p.nextInterval], nextInterval := p.nextInterval + 1 }

/-! ## showMessage (lines 48-56) -/

/-- The function `showMessage(text, type)`: sets the message and schedules its clearing
after 5000 ms. -/
def showMessage (text type : String) (p : Page) : Page :=
  setTimeout 5000 (setMessage ⟨text, type⟩ p)

/-- The callback `showMessage` hands to `setTimeout`, and also the `onClick` of the
"Clear Message" button: `setMessage({ text: '', type: '' })`. -/
def clearMessage (p : Page) : Page := setMessage noMessage p

/-! ## File selection and preview (lines 84-115, 270-284) -/

/-- The alternatives of the regular expression `/\.(xlsx|xls|xlsm|csv)$/`. -/
def extensions : List String := ["xlsx", "xls", "xlsm", "csv"]

/-- The test `name.match(/\.(xlsx|xls|xlsm|csv)$/)`: the expression has no flags, so `$`
is the end of the input and the match is a case-sensitive suffix test. -/
def nameMatches (name : String) : Bool :=
  extensions.any fun e => ("." ++ e).toList.isSuffixOf name.toList

/-- Two-digit rendering of a number below 100. -/
def twoDigits (k : Nat) : String :=
  if k < 10 then "0" ++ toString k else toString k

/-- The expression `(size / 1024).toFixed(2)`. Dividing an integer below `2^53` by
`1024 = 2^10` is exact in binary floating point, and `toFixed(2)` picks the integer `n`
with `n / 100` closest to that exact value, the larger one on a tie. -/
def toFixed2 (size : Nat) : String :=
  let n := (size * 100 + 512) / 1024
  toString (n / 100) ++ "." ++ twoDigits (n % 100)

/-- The expression `file.type || '...spreadsheetml.sheet'`: the empty string is falsy. -/
def fileTypeOr (t : String) : String :=
  if t = "" then "application/vnd.openxmlformats-officedocument.spreadsheetml.sheet" else t

/-- The entry `reader.onload` builds for `file`. -/
def previewOf (file : File) : PreviewEntry where
  fileName := file.name
  fileSize := toFixed2 file.size ++ " KB"
  fileType := fileTypeOr file.type

/-- The function `previewFile(file)`: creates the reader and starts the read. -/
def previewFile (file : File) (p : Page) : Page :=
  { p with readers := p.readers ++ [file] }

/-- The `reader.onload` callback of the reader created for `file`. Nothing in its `try`
block throws, so the `catch` branch is not taken. -/
def readerOnload (file : File) (p : Page) : Page :=
  setPreviewData [previewOf file] { p with readers := p.readers.erase file }

def rejectText : String := "Please select an Excel (.xlsx, .xls, .xlsm) or CSV file."

/-- The handler `handleFileChange(e)`; `selectedFile` is `e.target.files[0]`. -/
def handleFileChange (selectedFile : Option File) (p : Page) : Page :=
  match selectedFile with
  | none => p
  | some f =>
    if !nameMatches f.name then
      showMessage rejectText "error" p
    else
      previewFile f (setFile (some f) p)

/-- The handler `handleDrop(e)`; `droppedFile` is `e.dataTransfer.files[0]`. The style
changes on the drop target are not part of the page state. -/
def handleDrop (droppedFile : Option File) (p : Page) : Page :=
  match droppedFile with
  | none => p
  | some f =>
    if !nameMatches f.name then
      showMessage rejectText "error" p
    else
      previewFile f (setFile (some f) p)

/-! ## Values read from response bodies -/

/-- Text a template literal gives a numeric field: its numeral, or `undefined` when the
field is absent. -/
def showNat : Option Nat → String
  | none => "undefined"
  | some n => toString n

/-- Text a template literal gives a string field, or `undefined` when it is absent. -/
def showStr : Option String → String
  | none => "undefined"
  | some s => s

/-- The expression `x || d` for an optional string field: absent and empty are falsy. -/
def strOr (x : Option String) (d : String) : String :=
  match x with
  | none => d
  | some s => if s = "" then d else s

/-- The outcome of an awaited promise: `.error msg` when it rejects with an error whose
`message` is `msg`. -/
abbrev Settled (α : Type) := Except String α

/-! ## fetchUploadHistory (lines 28-46) -/

/-- The part of `fetchUploadHistory()` that runs before `await fetch`. -/
def fetchUploadHistory (p : Page) : Page :=
  fetch ⟨"GET", "/api/directory/upload-history", none⟩ (setLoadingHistory true p)

/-- A response of the history endpoint: `ok`, and what `response.json()` settles to. -/
structure HistoryResponse where
  ok : Bool
  json : Settled (List HistoryEntry)

/-- The rest of `fetchUploadHistory()`, once `fetch` (and `response.json()`) settled. -/
def fetchUploadHistoryDone (r : Settled HistoryResponse) (p : Page) : Page :=
  let q :=
    match r with
    | .error _ => p
    | .ok response =>
      if response.ok then
        match response.json with
        | .error _ => p
        | .ok history => setUploadHistory history p
      else p
  setLoadingHistory false q

/-! ## handleDeleteAll (lines 58-82) -/

/-- The body of a clear-all response: `{ deletedCount }`. -/
structure DeleteBody where
  deletedCount : Option Nat

/-- A response of the clear-all endpoint: `ok`, and what `response.json()` settles to,
`none` being the body `null`. -/
structure DeleteResponse where
  ok : Bool
  json : Settled (Option DeleteBody)

/-- The part of `handleDeleteAll()` that runs before `await fetch`; `confirmed` is what
`window.confirm` returned. -/
def handleDeleteAll (confirmed : Bool) (p : Page) : Page :=
  if !confirmed then p
  else fetch ⟨"DELETE", "/api/directory/clear-all", none⟩ p

/-- The rest of `handleDeleteAll()`, once `fetch` (and `response.json()`) settled. On the
body `null` the expression `result.deletedCount` throws and the `catch` block runs. -/
def handleDeleteAllDone (r : Settled DeleteResponse) (p : Page) : Page :=
  match r with
  | .error _ => showMessage "Error deleting data" "error" p
  | .ok response =>
    if response.ok then
      match response.json with
      | .error _ => showMessage "Error deleting data" "error" p
      | .ok none => showMessage "Error deleting data" "error" p
      | .ok (some result) =>
        setPreviewData [] (setFile none (setUploadHistory []
          (showMessage ("Successfully deleted " ++ showNat result.deletedCount
            ++ " listings and upload history") "success" p)))
    else
      showMessage "Failed to delete data" "error" p

/-! ## handleSubmit (lines 117-204) -/

/-- One element of `result.errors`: `{ row, sheet?, error }`. -/
structure RowError where
  row : Nat
  sheet : Option String
  error : String
deriving DecidableEq, Repr

/-- The body of a bulk-upload response, with the fields the handler reads:
`error` on a failure, `uploadedCount` and `errors` on a success. -/
structure UploadBody where
  error : Option String
  uploadedCount : Option Nat
  errors : Option (List RowError)
deriving DecidableEq, Repr

/-- A response of the bulk-upload endpoint: `ok`, and what `res.json()` settles to,
`none` being the body `null`. -/
structure UploadResponse where
  ok : Bool
  json : Settled (Option UploadBody)

/-- The callback of the progress interval `id`:
`setUploadProgress(prev => prev >= 90 ? (clearInterval(id), 90) : prev + 10)`. -/
def progressTick (id : Nat) (p : Page) : Page :=
  if p.uploadProgress ≥ 90 then
    setUploadProgress 90 (clearInterval id p)
  else
    setUploadProgress (p.uploadProgress + 10) p

/-- The part of `handleSubmit(e)` that runs before `await fetch`. When a file is selected
the interval it starts has identifier `p.nextInterval`. -/
def handleSubmit (p : Page) : Page :=
  match p.file with
  | none => showMessage "Please select a file to upload." "error" p
  | some f =>
    fetch ⟨"POST", "/api/directory/bulk-upload", some f⟩
      (setInterval (setUploadProgress 0 (setUploading true p)))

/-- The `catch (err)` block of `handleSubmit`; `msg` is `err.message`. -/
def submitCatch (msg : String) (p : Page) : Page :=
  showMessage ("Upload failed: " ++ msg) "error" p

/-- The `finally` block of `handleSubmit`. -/
def submitFinally (p : Page) : Page :=
  setUploadProgress 0 (setUploading false p)

/-- The step of `handleSubmit` that runs when `fetch` settles, for the submission whose
interval is `id`: a rejection goes to `catch` and `finally`; a response clears the
interval, sets the progress to 100 and waits for `res.json()`. -/
def handleSubmitFetched (id : Nat) (r : Settled UploadResponse) (p : Page) : Page :=
  match r with
  | .error msg => submitFinally (submitCatch msg p)
  | .ok _ => setUploadProgress 100 (clearInterval id p)

/-- The line of the alert for one row error. -/
def errorLine (err : RowError) : String :=
  let sheetInfo :=
    match err.sheet with
    | none => ""
    | some s => if s = "" then "" else " (Sheet: " ++ s ++ ")"
  "Row " ++ toString err.row ++ sheetInfo ++ ": " ++ err.error

/-- The variable `errorDetails` of `handleSubmit`. -/
def errorDetails (errors : List RowError) : String :=
  let details := String.intercalate "\n" ((errors.take 5).map errorLine)
  if errors.length > 5 then
    details ++ "\n... and " ++ toString (errors.length - 5) ++ " more errors"
  else details

/-- The variable `successMessage` of `handleSubmit`. -/
def successMessage (uploadedCount : Option Nat) (errors : List RowError) : String :=
  "Successfully uploaded " ++ showNat uploadedCount ++ " listings! "
    ++ (if errors.length > 0 then toString errors.length ++ " entries had errors." else "")

/-- The step of `handleSubmit` that runs when `res.json()` settles. `tyErr` is the
message of the `TypeError` the runtime throws in this step when it throws one: for
`errorData.error` or `result.uploadedCount` when the body is `null`, and for
`result.errors.length` when `result.errors` is `undefined`. -/
def handleSubmitParsed (tyErr : String) (res : UploadResponse) (p : Page) : Page :=
  if !res.ok then
    match res.json with
    | .error msg => submitFinally (submitCatch msg p)
    | .ok none => submitFinally (submitCatch tyErr p)
    | .ok (some errorData) =>
      submitFinally (submitCatch (strOr errorData.error "Upload failed") p)
  else
    match res.json with
    | .error msg => submitFinally (submitCatch msg p)
    | .ok result =>
      -- Reset form
      let p1 := { setPreviewData [] (setFile none p) with fileInputValue := "" }
      match result with
      | none => submitFinally (submitCatch tyErr p1)
      | some result =>
        match result.errors with
        | none => submitFinally (submitCatch tyErr p1)
        | some errors =>
          let p2 := showMessage (successMessage result.uploadedCount errors) "success" p1
          let p3 := fetchUploadHistory p2
          let p4 :=
            if errors.length > 0 then
              alert ("Upload completed with errors:\n\n" ++ errorDetails errors
                ++ "\n\nCheck console for full details.") p3
            else p3
          submitFinally p4

/-- A whole run of `handleSubmit` with no other event in between: the synchronous part,
then the two continuations for the outcome `r` of the request. -/
def handleSubmitRun (tyErr : String) (r : Settled UploadResponse) (p : Page) : Page :=
  match p.file with
  | none => handleSubmit p
  | some _ =>
    let q := handleSubmitFetched p.nextInterval r (handleSubmit p)
    match r with
    | .error _ => q
    | .ok res => handleSubmitParsed tyErr res q

/-! ## handleTestParse (lines 206-256) -/

/-- The body of a test-parse response, with the fields the handler reads. `firstRowText`
is the text of `JSON.stringify(result.firstRow, null, 2)`. -/
structure ParseBody where
  error : Option String
  fileName : Option String
  fileExtension : Option String
  totalRows : Option Nat
  sheets : Option (List (String × Nat))
  autoCategorization : Option (List (String × String))
  headers : Option (List String)
  firstRowText : String

/-- A response of the test-parse endpoint: `ok`, and what `res.json()` settles to,
`none` being the body `null`. -/
structure ParseResponse where
  ok : Bool
  json : Settled (Option ParseBody)

/-- The part of `handleTestParse()` that runs before `await fetch`. -/
def handleTestParse (p : Page) : Page :=
  match p.file with
  | none => showMessage "Please select a file to test." "error" p
  | some f => fetch ⟨"POST", "/api/directory/test-parse", some f⟩ p

/-- The `catch (err)` block of `handleTestParse`. -/
def testParseCatch (msg : String) (p : Page) : Page :=
  showMessage ("Test parse failed: " ++ msg) "error" p

/-- The text `handleTestParse` builds before `Headers:` for a parsed result. -/
def parseSummary (result : ParseBody) : String :=
  let m0 := "File: " ++ showStr result.fileName ++ "\nFormat: "
    ++ showStr result.fileExtension ++ "\nTotal Rows: " ++ showNat result.totalRows
  let m1 :=
    match result.sheets with
    | none => m0
    | some sheets =>
      if sheets.length > 0 then
        sheets.foldl (fun m sheet => m ++ "\n" ++ sheet.1 ++ ": " ++ toString sheet.2 ++ " rows")
          (m0 ++ "\n\nSheets:")
      else m0
  match result.autoCategorization with
  | none => m1
  | some entries =>
    entries.foldl (fun m e => m ++ "\n" ++ e.1 ++ " → " ++ e.2) (m1 ++ "\n\nAuto-Categorization:")

/-- The rest of `handleTestParse()`, once `fetch` (and `res.json()`) settled. `tyErr` is
the message of the `TypeError` the runtime throws in this step when it throws one: for
`errorData.error` or `result.fileName` when the body is `null`, and for
`result.headers.join` when `result.headers` is `undefined`. -/
def handleTestParseDone (tyErr : String) (r : Settled ParseResponse) (p : Page) : Page :=
  match r with
  | .error msg => testParseCatch msg p
  | .ok res =>
    if !res.ok then
      match res.json with
      | .error msg => testParseCatch msg p
      | .ok none => testParseCatch tyErr p
      | .ok (some errorData) => testParseCatch (strOr errorData.error "Test parse failed") p
    else
      match res.json with
      | .error msg => testParseCatch msg p
      | .ok none => testParseCatch tyErr p
      | .ok (some result) =>
        match result.headers with
        | none => testParseCatch tyErr p
        | some headers =>
          alert (parseSummary result ++ "\n\nHeaders: " ++ String.intercalate ", " headers
            ++ "\n\nFirst Row: " ++ result.firstRowText) p

/-! ## The page as a transition system -/

/-- The mount effect (lines 22-26): clears the message and starts the history fetch. -/
def mount (p : Page) : Page := fetchUploadHistory (setMessage noMessage p)

/-- The oldest pending timeout fires: it leaves the pending list and runs its callback. -/
def timeoutFires (p : Page) : Page := clearMessage { p with timeouts := p.timeouts.tail }

/-- Time passes by `dt` milliseconds. -/
def advance (dt : Nat) (p : Page) : Page := { p with now := p.now + dt }

/-- One event of the page. A handler step and the continuations of the asynchronous
handlers are separate events; a continuation may run at any later moment, which covers
every order in which the browser can deliver them. A file reader fires only while it is
pending, an interval ticks only while it is live, and a timeout fires, oldest first, only
once it is due. -/
inductive Step : Page → Page → Prop
  | mount (p : Page) : Step p (mount p)
  | fileChange (p : Page) (c : Option File) : Step p (handleFileChange c p)
  | drop (p : Page) (c : Option File) : Step p (handleDrop c p)
  | readerLoad (p : Page) (f : File) : f ∈ p.readers → Step p (readerOnload f p)
  | submit (p : Page) : Step p (handleSubmit p)
  | tick (p : Page) (id : Nat) : id ∈ p.intervals → Step p (progressTick id p)
  | submitFetched (p : Page) (id : Nat) (r : Settled UploadResponse) :
      Step p (handleSubmitFetched id r p)
  | submitParsed (p : Page) (tyErr : String) (res : UploadResponse) :
      Step p (handleSubmitParsed tyErr res p)
  | testParse (p : Page) : Step p (handleTestParse p)
  | testParseDone (p : Page) (tyErr : String) (r : Settled ParseResponse) :
      Step p (handleTestParseDone tyErr r p)
  | deleteAll (p : Page) (confirmed : Bool) : Step p (handleDeleteAll confirmed p)
  | deleteAllDone (p : Page) (r : Settled DeleteResponse) : Step p (handleDeleteAllDone r p)
  | refresh (p : Page) : Step p (fetchUploadHistory p)
  | refreshDone (p : Page) (r : Settled HistoryResponse) : Step p (fetchUploadHistoryDone r p)
  | timeout (p : Page) (t : Nat) : p.timeouts.head? = some t → t ≤ p.now →
      Step p (timeoutFires p)
  | dismiss (p : Page) : Step p (clearMessage p)
  | advance (p : Page) (dt : Nat) : Step p (advance dt p)

/-- The pages reachable from the initial page by events. -/
inductive Reachable : Page → Prop
  | init : Reachable Page.init
  | step {p q : Page} : Reachable p → Step p q → Reachable q

/-- The consistency the specification states for selected file and preview: both are
empty, or the preview has one entry and it has the name and the size text of the selected
file. -/
def PreviewConsistent (p : Page) : Prop :=
  (p.file = none ∧ p.previewData = [])
  ∨ ∃ f e, p.file = some f ∧ p.previewData = [e] ∧ e.fileName = f.name
      ∧ e.fileSize = toFixed2 f.size ++ " KB"

/-- What the handlers do keep about selection and preview: every pending reader and the
selected file have an accepted name, and the preview is empty or the single entry built
for a file with an accepted name. -/
def SelectionInv (p : Page) : Prop :=
  (∀ f ∈ p.readers, nameMatches f.name = true)
  ∧ (∀ f, p.file = some f → nameMatches f.name = true)
  ∧ (p.previewData = [] ∨ ∃ f, nameMatches f.name = true ∧ p.previewData = [previewOf f])

/-- An event in which `showMessage` is not called and the message is not dismissed:
time passing, a due timeout firing (oldest first), and the handler steps that do not
reach a `showMessage` call. -/
inductive Idle : Page → Page → Prop
  | advance (p : Page) (dt : Nat) : Idle p (advance dt p)
  | timeout (p : Page) (t : Nat) : p.timeouts.head? = some t → t ≤ p.now →
      Idle p (timeoutFires p)
  | fileChange (p : Page) (f : File) : nameMatches f.name = true →
      Idle p (handleFileChange (some f) p)
  | drop (p : Page) (f : File) : nameMatches f.name = true → Idle p (handleDrop (some f) p)
  | readerLoad (p : Page) (f : File) : f ∈ p.readers → Idle p (readerOnload f p)
  | submit (p : Page) (f : File) : p.file = some f → Idle p (handleSubmit p)
  | tick (p : Page) (id : Nat) : id ∈ p.intervals → Idle p (progressTick id p)
  | submitFetched (p : Page) (id : Nat) (res : UploadResponse) :
      Idle p (handleSubmitFetched id (.ok res) p)
  | testParse (p : Page) (f : File) : p.file = some f → Idle p (handleTestParse p)
  | deleteAll (p : Page) (confirmed : Bool) : Idle p (handleDeleteAll confirmed p)
  | refresh (p : Page) : Idle p (fetchUploadHistory p)
  | refreshDone (p : Page) (r : Settled HistoryResponse) :
      Idle p (fetchUploadHistoryDone r p)

/-! ## Events as data: traces and the files passed to the selection handlers -/

/-- The label of a `Step`: which handler step or browser callback runs, with its input. -/
inductive Event where
  | mount
  | fileChange (c : Option File)
  | drop (c : Option File)
  | readerLoad (f : File)
  | submit
  | tick (id : Nat)
  | submitFetched (id : Nat) (r : Settled UploadResponse)
  | submitParsed (tyErr : String) (res : UploadResponse)
  | testParse
  | testParseDone (tyErr : String) (r : Settled ParseResponse)
  | deleteAll (confirmed : Bool)
  | deleteAllDone (r : Settled DeleteResponse)
  | refresh
  | refreshDone (r : Settled HistoryResponse)
  | timeout
  | dismiss
  | advance (dt : Nat)

/-- Whether the browser can deliver the event on page `p`: a reader fires only while it
is pending, an interval ticks only while it is live, the oldest timeout fires only once
it is due. -/
def eventEnabled (e : Event) (p : Page) : Bool :=
  match e with
  | .readerLoad f => decide (f ∈ p.readers)
  | .tick id => decide (id ∈ p.intervals)
  | .timeout =>
    match p.timeouts.head? with
    | some t => decide (t ≤ p.now)
    | none => false
  | _ => true

/-- The page after the event. -/
def applyEvent (e : Event) (p : Page) : Page :=
  match e with
  | .mount => mount p
  | .fileChange c => handleFileChange c p
  | .drop c => handleDrop c p
  | .readerLoad f => readerOnload f p
  | .submit => handleSubmit p
  | .tick id => progressTick id p
  | .submitFetched id r => handleSubmitFetched id r p
  | .submitParsed tyErr res => handleSubmitParsed tyErr res p
  | .testParse => handleTestParse p
  | .testParseDone tyErr r => handleTestParseDone tyErr r p
  | .deleteAll confirmed => handleDeleteAll confirmed p
  | .deleteAllDone r => handleDeleteAllDone r p
  | .refresh => fetchUploadHistory p
  | .refreshDone r => fetchUploadHistoryDone r p
  | .timeout => timeoutFires p
  | .dismiss => clearMessage p
  | .advance dt => advance dt p

/-- The file the event passes to `handleFileChange` or `handleDrop`, if it is one of
these two with a file. -/
def chosenFile (e : Event) : Option File :=
  match e with
  | .fileChange c => c
  | .drop c => c
  | _ => none

/-- The page after the events of the list, in order, when each is enabled as its turn
comes. -/
def runEvents : List Event → Page → Option Page
  | [], p => some p
  | e :: es, p => if eventEnabled e p then runEvents es (applyEvent e p) else none

/-- The files passed to `handleFileChange` or `handleDrop` by the events of the list. -/
def chosenFiles (es : List Event) : List File := es.filterMap chosenFile

/-- The invariant `SelectionInv` with the origin of the files: every pending reader, the
selected file and the file the preview is built for have an accepted name and are among
the files `hs`. -/
def SelectionInvOf (hs : List File) (p : Page) : Prop :=
  (∀ f ∈ p.readers, nameMatches f.name = true ∧ f ∈ hs)
  ∧ (∀ f, p.file = some f → nameMatches f.name = true ∧ f ∈ hs)
  ∧ (p.previewData = []
      ∨ ∃ f, f ∈ hs ∧ nameMatches f.name = true ∧ p.previewData = [previewOf f])

/-! ## Auxiliary lemmas -/

/-- The regular-expression test fails exactly when the name ends in none of the four
extensions. -/
theorem nameMatches_eq_false_iff (name : String) :
    nameMatches name = false ↔
      ∀ e ∈ [".xlsx", ".xls", ".xlsm", ".csv"], ¬ (String.toList e <:+ name.toList) := by
  have a1 : "." ++ "xlsx" = ".xlsx" := by decide
  have a2 : "." ++ "xls" = ".xls" := by decide
  have a3 : "." ++ "xlsm" = ".xlsm" := by decide
  have a4 : "." ++ "csv" = ".csv" := by decide
  simp only [nameMatches, extensions, List.any_cons, List.any_nil, Bool.or_false,
    Bool.or_eq_false_iff, a1, a2, a3, a4, List.mem_cons, List.mem_singleton, forall_eq_or_imp,
    forall_eq, List.not_mem_nil, false_imp_iff, implies_true, and_true]
  simp only [← Bool.not_eq_true, List.isSuffixOf_iff_suffix, and_assoc]

/-- The regular-expression test succeeds exactly when the name ends in one of the four
extensions. -/
theorem nameMatches_eq_true_iff (name : String) :
    nameMatches name = true ↔
      ∃ e ∈ [".xlsx", ".xls", ".xlsm", ".csv"], String.toList e <:+ name.toList := by
  rw [← Bool.not_eq_false, nameMatches_eq_false_iff]
  push_neg
  rfl

/-! ## C1: rejection of a file with another extension -/

/-- C1. A candidate file whose name ends, case-sensitively, in none of `.xlsx`, `.xls`,
`.xlsm`, `.csv` is rejected by `handleFileChange` and by `handleDrop` alike: the selected
file and the preview stay as they were, no file read is started, and the message becomes
the rejection text with type `error`. -/
theorem C1_reject_other_extension (p : Page) (f : File)
    (h : ∀ e ∈ [".xlsx", ".xls", ".xlsm", ".csv"], ¬ (String.toList e <:+ f.name.toList)) :
    ((handleFileChange (some f) p).file = p.file
      ∧ (handleFileChange (some f) p).previewData = p.previewData
      ∧ (handleFileChange (some f) p).readers = p.readers
      ∧ (handleFileChange (some f) p).message
          = ⟨"Please select an Excel (.xlsx, .xls, .xlsm) or CSV file.", "error"⟩)
    ∧ ((handleDrop (some f) p).file = p.file
      ∧ (handleDrop (some f) p).previewData = p.previewData
      ∧ (handleDrop (some f) p).readers = p.readers
      ∧ (handleDrop (some f) p).message
          = ⟨"Please select an Excel (.xlsx, .xls, .xlsm) or CSV file.", "error"⟩) := by
  have hm : nameMatches f.name = false := (nameMatches_eq_false_iff f.name).mpr h
  simp [handleFileChange, handleDrop, hm, showMessage, setTimeout, setMessage, rejectText]

/-- C1 at `listings.txt` and at `LISTINGS.CSV`, on a page that already holds a file and
its preview. -/
theorem C1_reject_other_extension_witness :
    (∀ e ∈ [".xlsx", ".xls", ".xlsm", ".csv"],
        ¬ (String.toList e <:+ String.toList "listings.txt"))
    ∧ (∀ e ∈ [".xlsx", ".xls", ".xlsm", ".csv"],
        ¬ (String.toList e <:+ String.toList "LISTINGS.CSV"))
    ∧ (handleFileChange (some ⟨"listings.txt", 10, "text/plain"⟩)
        { Page.init with file := some ⟨"a.csv", 2048, "text/csv"⟩,
                         previewData := [previewOf ⟨"a.csv", 2048, "text/csv"⟩] }).file
        = some ⟨"a.csv", 2048, "text/csv"⟩
    ∧ (handleDrop (some ⟨"LISTINGS.CSV", 10, "text/csv"⟩) Page.init).message
        = ⟨"Please select an Excel (.xlsx, .xls, .xlsm) or CSV file.", "error"⟩ :=
  ⟨by decide, by decide,
    (C1_reject_other_extension
      { Page.init with file := some ⟨"a.csv", 2048, "text/csv"⟩,
                       previewData := [previewOf ⟨"a.csv", 2048, "text/csv"⟩] }
      ⟨"listings.txt", 10, "text/plain"⟩ (by decide)).1.1,
    (C1_reject_other_extension Page.init ⟨"LISTINGS.CSV", 10, "text/csv"⟩ (by decide)).2.2.2.2⟩

/-- Below 100, `twoDigits` is the tens digit followed by the units digit. -/
theorem twoDigits_eq (k : Nat) (hk : k < 100) :
    twoDigits k = String.mk [Nat.digitChar (k / 10), Nat.digitChar (k % 10)] := by
  interval_cases k <;> rfl

/-- The value `toFixed2` prints is `N / 100` for the integer `N` nearest to
`100 * size / 1024`, the larger one on a tie, with exactly two decimals. -/
theorem toFixed2_spec (size : Nat) :
    ∃ N : Nat, 1024 * N ≤ 100 * size + 512 ∧ 100 * size + 512 < 1024 * (N + 1)
      ∧ toFixed2 size = toString (N / 100) ++ "."
          ++ String.mk [Nat.digitChar (N % 100 / 10), Nat.digitChar (N % 10)] := by
  refine ⟨(size * 100 + 512) / 1024, ?_, ?_, ?_⟩
  · have := Nat.mul_div_le (size * 100 + 512) 1024
    omega
  · have := Nat.lt_mul_div_succ (size * 100 + 512) (show 0 < 1024 by norm_num)
    omega
  · have hk : (size * 100 + 512) / 1024 % 100 < 100 := Nat.mod_lt _ (by norm_num)
    simp only [toFixed2, twoDigits_eq _ hk, Nat.mod_mod_of_dvd _ (show 10 ∣ 100 by norm_num)]

/-! ## C8: an accepted file and its preview -/

/-- C8. For a file whose name ends in `.xlsx`, `.xls`, `.xlsm` or `.csv`, selection by
`handleFileChange` or `handleDrop` sets the selected file and starts one file read; once
that read has completed the selected file is that file and the preview is the single entry
with the file's name and the size text `N / 100` with two decimals followed by ` KB`,
where `N` is the integer nearest to `100 * size / 1024`. A size of 1536 gives `1.50 KB`. -/
theorem C8_accepted_file_preview (p : Page) (f : File)
    (h : ∃ e ∈ [".xlsx", ".xls", ".xlsm", ".csv"], String.toList e <:+ f.name.toList) :
    (∀ q ∈ [handleFileChange (some f) p, handleDrop (some f) p],
        q.file = some f ∧ q.readers = p.readers ++ [f]
        ∧ (readerOnload f q).file = some f
        ∧ ∃ N : Nat, 1024 * N ≤ 100 * f.size + 512 ∧ 100 * f.size + 512 < 1024 * (N + 1)
          ∧ ∃ e : PreviewEntry, (readerOnload f q).previewData = [e]
            ∧ e.fileName = f.name
            ∧ e.fileSize = toString (N / 100) ++ "."
                ++ String.mk [Nat.digitChar (N % 100 / 10), Nat.digitChar (N % 10)] ++ " KB")
    ∧ (readerOnload ⟨"listings.csv", 1536, "text/csv"⟩
        (handleFileChange (some ⟨"listings.csv", 1536, "text/csv"⟩) Page.init)).previewData
        = [⟨"listings.csv", "1.50 KB", "text/csv"⟩] := by
  have hm : nameMatches f.name = true := (nameMatches_eq_true_iff f.name).mpr h
  obtain ⟨N, h1, h2, h3⟩ := toFixed2_spec f.size
  refine ⟨?_, by decide⟩
  intro q hq
  have hq2 : q = previewFile f (setFile (some f) p) := by
    simp only [List.mem_cons, List.mem_singleton, List.not_mem_nil, or_false] at hq
    rcases hq with rfl | rfl <;> simp [handleFileChange, handleDrop, hm]
  subst hq2
  refine ⟨rfl, rfl, rfl, N, h1, h2, previewOf f, rfl, rfl, ?_⟩
  simp only [previewOf, h3]

/-- C8 at `listings.csv` of 1536 bytes, dropped on the initial page. -/
theorem C8_accepted_file_preview_witness :
    (∃ e ∈ [".xlsx", ".xls", ".xlsm", ".csv"], String.toList e <:+ String.toList "listings.csv")
    ∧ (readerOnload ⟨"listings.csv", 1536, "text/csv"⟩
        (handleDrop (some ⟨"listings.csv", 1536, "text/csv"⟩) Page.init)).file
        = some ⟨"listings.csv", 1536, "text/csv"⟩
    ∧ (readerOnload ⟨"listings.csv", 1536, "text/csv"⟩
        (handleFileChange (some ⟨"listings.csv", 1536, "text/csv"⟩) Page.init)).previewData
        = [⟨"listings.csv", "1.50 KB", "text/csv"⟩] :=
  ⟨by decide,
   ((C8_accepted_file_preview Page.init ⟨"listings.csv", 1536, "text/csv"⟩ (by decide)).1
      (handleDrop (some ⟨"listings.csv", 1536, "text/csv"⟩) Page.init) (by simp)).2.2.1,
   (C8_accepted_file_preview Page.init ⟨"listings.csv", 1536, "text/csv"⟩ (by decide)).2⟩

/-! ## C3: the success message of an upload -/

/-- The message after the last step of a successful upload is the success message. -/
theorem handleSubmitParsed_success_message (tyErr : String) (p : Page) (e : Option String)
    (c : Option Nat) (es : List RowError) :
    (handleSubmitParsed tyErr ⟨true, .ok (some ⟨e, c, some es⟩)⟩ p).message
      = ⟨successMessage c es, "success"⟩ := by
  by_cases h : es.length > 0 <;>
    simp [handleSubmitParsed, h, submitFinally, setUploadProgress, setUploading, alert,
      fetchUploadHistory, fetch, setLoadingHistory, showMessage, setTimeout, setMessage]

/-- C3. For a successful upload response `{uploadedCount: c, errors: es}` the message set
by `handleSubmit` has type `success` and its text is `Successfully uploaded c listings! `
(trailing space kept) when `es` is empty, and that text followed by
`N entries had errors.` with `N` the length of `es` otherwise; this holds for the last
step of the handler on any page and for a whole run from any page with a selected file.
The response `{uploadedCount: 42, errors: []}` gives `Successfully uploaded 42 listings! `. -/
theorem C3_success_message (tyErr : String) (p : Page) (f : File) (e : Option String)
    (c : Nat) (es : List RowError) :
    (handleSubmitParsed tyErr ⟨true, .ok (some ⟨e, some c, some es⟩)⟩ p).message
        = ⟨if es = [] then "Successfully uploaded " ++ toString c ++ " listings! "
            else "Successfully uploaded " ++ toString c ++ " listings! "
              ++ toString es.length ++ " entries had errors.", "success"⟩
    ∧ (handleSubmitRun tyErr (.ok ⟨true, .ok (some ⟨e, some c, some es⟩)⟩) (setFile (some f) p)).message
        = ⟨if es = [] then "Successfully uploaded " ++ toString c ++ " listings! "
            else "Successfully uploaded " ++ toString c ++ " listings! "
              ++ toString es.length ++ " entries had errors.", "success"⟩
    ∧ (handleSubmitRun tyErr (.ok ⟨true, .ok (some ⟨none, some 42, some []⟩)⟩)
        (setFile (some f) p)).message = ⟨"Successfully uploaded 42 listings! ", "success"⟩ := by
  have key : successMessage (some c) es
      = if es = [] then "Successfully uploaded " ++ toString c ++ " listings! "
          else "Successfully uploaded " ++ toString c ++ " listings! "
            ++ toString es.length ++ " entries had errors." := by
    cases es with
    | nil => simp [successMessage, showNat]
    | cons a t => simp [successMessage, showNat, String.append_assoc]
  refine ⟨?_, ?_, ?_⟩
  · rw [handleSubmitParsed_success_message, key]
  · simp only [handleSubmitRun, setFile]
    rw [handleSubmitParsed_success_message, key]
  · simp only [handleSubmitRun, setFile]
    rw [handleSubmitParsed_success_message]
    decide

/-! ## C4: the alert that lists row errors -/

/-- The alerts after the last step of a successful upload. -/
theorem handleSubmitParsed_success_alerts (tyErr : String) (p : Page) (e : Option String)
    (c : Option Nat) (es : List RowError) :
    (handleSubmitParsed tyErr ⟨true, .ok (some ⟨e, c, some es⟩)⟩ p).alerts
      = if es = [] then p.alerts
        else p.alerts ++ ["Upload completed with errors:\n\n" ++ errorDetails es
          ++ "\n\nCheck console for full details."] := by
  cases es with
  | nil =>
    simp [handleSubmitParsed, submitFinally, setUploadProgress, setUploading,
      fetchUploadHistory, fetch, setLoadingHistory, showMessage, setTimeout, setMessage,
      setPreviewData, setFile]
  | cons a t =>
    simp [handleSubmitParsed, submitFinally, setUploadProgress, setUploading, alert,
      fetchUploadHistory, fetch, setLoadingHistory, showMessage, setTimeout, setMessage,
      setPreviewData, setFile]

/-- The two shapes of a line of the alert. -/
theorem errorLine_shape (err : RowError) :
    (∀ s, err.sheet = some s → s ≠ "" →
        errorLine err = "Row " ++ toString err.row ++ " (Sheet: " ++ s ++ "): " ++ err.error)
    ∧ (err.sheet = none ∨ err.sheet = some "" →
        errorLine err = "Row " ++ toString err.row ++ ": " ++ err.error) := by
  constructor
  · intro s hs hne
    simp [errorLine, hs, hne, String.append_assoc]
  · rintro (hs | hs) <;> simp [errorLine, hs]

/-- C4. After a successful upload with error list `es`: when `es` is empty no alert is
raised; otherwise exactly one alert is raised, whose body, between the heading and the
closing line, is `min 5 |es|` lines joined by line breaks, the line at position `i` being
the one for `es[i]`, with the text `Row <row>: <error>`, or
`Row <row> (Sheet: <sheet>): <error>` when the entry has a non-empty sheet name, followed by
`... and K more errors` with `K = |es| - 5` on a line of its own exactly when `|es| > 5`. -/
theorem C4_error_alert (tyErr : String) (p : Page) (e : Option String) (c : Option Nat)
    (es : List RowError) :
    if es = [] then
      (handleSubmitParsed tyErr ⟨true, .ok (some ⟨e, c, some es⟩)⟩ p).alerts = p.alerts
    else
      ∃ lines : List String,
        lines.length = min 5 es.length
        ∧ (∀ i, i < lines.length → ∃ err line, es[i]? = some err ∧ lines[i]? = some line
            ∧ (∀ s, err.sheet = some s → s ≠ "" →
                line = "Row " ++ toString err.row ++ " (Sheet: " ++ s ++ "): " ++ err.error)
            ∧ (err.sheet = none ∨ err.sheet = some "" →
                line = "Row " ++ toString err.row ++ ": " ++ err.error))
        ∧ (handleSubmitParsed tyErr ⟨true, .ok (some ⟨e, c, some es⟩)⟩ p).alerts
            = p.alerts ++ ["Upload completed with errors:\n\n" ++ String.intercalate "\n" lines
                ++ (if 5 < es.length then
                      "\n... and " ++ toString (es.length - 5) ++ " more errors"
                    else "")
                ++ "\n\nCheck console for full details."] := by
  rw [handleSubmitParsed_success_alerts]
  split
  · rfl
  · refine ⟨(es.take 5).map errorLine, by simp, ?_, ?_⟩
    · intro i hi
      simp only [List.length_map, List.length_take, lt_min_iff] at hi
      refine ⟨es[i], errorLine es[i], by simp [hi.2], ?_, errorLine_shape _⟩
      simp [List.getElem?_map, List.getElem?_take, hi.1, hi.2]
    · congr 2
      by_cases h5 : 5 < es.length
      · simp [errorDetails, h5, String.append_assoc]
      · simp [errorDetails, h5]

/-! ## C2: a failed upload -/

/-- The page after `catch` and `finally`: only the message, its timeout, the uploading
flag and the progress are written. -/
theorem submitFinally_submitCatch (msg : String) (p : Page) :
    submitFinally (submitCatch msg p)
      = { p with message := ⟨"Upload failed: " ++ msg, "error"⟩,
                 timeouts := p.timeouts ++ [p.now + 5000],
                 uploading := false, uploadProgress := 0 } := by
  simp [submitFinally, submitCatch, showMessage, setTimeout, setMessage, setUploadProgress,
    setUploading]

/-- C2, as the code has it. A submission with a selected file `f` that fails before a
success body has been read, that is, `fetch` rejects with text `t`, or the response is not
ok and its body is unparseable with parser text `t`, or the response is not ok and `t` is
its `error` field (or `Upload failed` when that is absent or empty), or the response is ok
and its body is unparseable with parser text `t`, or the response is not ok, its body is
`null` and `t` is the text of the runtime error, ends with the message
`Upload failed: ` followed by `t`, of type `error`, with the selected file still `f` and
the preview unchanged. A success body that is `null` or has no `errors` field also ends
with a message `Upload failed: ` followed by the text of the runtime error. -/
theorem C2_upload_failure (tyErr : String) (p : Page) (f : File) (hf : p.file = some f) :
    (∀ (r : Settled UploadResponse) (t : String),
        (r = .error t ∨ r = .ok ⟨false, .error t⟩
          ∨ (∃ d, r = .ok ⟨false, .ok (some d)⟩ ∧ t = strOr d.error "Upload failed")
          ∨ r = .ok ⟨true, .error t⟩
          ∨ (r = .ok ⟨false, .ok none⟩ ∧ t = tyErr)) →
        (handleSubmitRun tyErr r p).message = ⟨"Upload failed: " ++ t, "error"⟩
        ∧ (handleSubmitRun tyErr r p).file = some f
        ∧ (handleSubmitRun tyErr r p).previewData = p.previewData)
    ∧ (∀ (e : Option String) (c : Option Nat),
        (handleSubmitRun tyErr (.ok ⟨true, .ok (some ⟨e, c, none⟩)⟩) p).message
          = ⟨"Upload failed: " ++ tyErr, "error"⟩
        ∧ (handleSubmitRun tyErr (.ok ⟨true, .ok none⟩) p).message
          = ⟨"Upload failed: " ++ tyErr, "error"⟩) := by
  constructor
  · intro r t h
    rcases h with rfl | rfl | ⟨d, rfl, rfl⟩ | rfl | ⟨rfl, rfl⟩ <;>
      simp [handleSubmitRun, hf, handleSubmitFetched, handleSubmitParsed,
        submitFinally_submitCatch, handleSubmit, fetch, setInterval, setUploadProgress,
        setUploading, clearInterval]
  · intro e c
    simp [handleSubmitRun, hf, handleSubmitFetched, handleSubmitParsed,
      submitFinally_submitCatch, handleSubmit, fetch, setInterval, setUploadProgress,
      setUploading, clearInterval, setPreviewData, setFile]

/-- C2 at a rejected `fetch` on a page holding `listings.csv`. -/
theorem C2_upload_failure_witness :
    (handleSubmitRun "" (.error "Failed to fetch")
        { Page.init with file := some ⟨"listings.csv", 1536, "text/csv"⟩ }).message
      = ⟨"Upload failed: Failed to fetch", "error"⟩
    ∧ (handleSubmitRun "" (.error "Failed to fetch")
        { Page.init with file := some ⟨"listings.csv", 1536, "text/csv"⟩ }).file
      = some ⟨"listings.csv", 1536, "text/csv"⟩ :=
  have h := (C2_upload_failure ""
    { Page.init with file := some ⟨"listings.csv", 1536, "text/csv"⟩ }
    ⟨"listings.csv", 1536, "text/csv"⟩ rfl).1 (.error "Failed to fetch") "Failed to fetch"
    (Or.inl rfl)
  ⟨h.1, h.2.1⟩

/-- C2 as stated fails: on a page holding `listings.csv` with its preview, a response that
is ok with body `{uploadedCount: 3}` (no `errors` field) ends in the error message while
the selected file and the preview have been cleared. -/
theorem C2_counterexample :
    (handleSubmitRun "Cannot read properties of undefined (reading 'length')"
        (.ok ⟨true, .ok (some ⟨none, some 3, none⟩)⟩)
        { Page.init with file := some ⟨"listings.csv", 1536, "text/csv"⟩,
                         previewData := [previewOf ⟨"listings.csv", 1536, "text/csv"⟩] }).message
      = ⟨"Upload failed: Cannot read properties of undefined (reading 'length')", "error"⟩
    ∧ (handleSubmitRun "Cannot read properties of undefined (reading 'length')"
        (.ok ⟨true, .ok (some ⟨none, some 3, none⟩)⟩)
        { Page.init with file := some ⟨"listings.csv", 1536, "text/csv"⟩,
                         previewData := [previewOf ⟨"listings.csv", 1536, "text/csv"⟩] }).file
      = none
    ∧ (handleSubmitRun "Cannot read properties of undefined (reading 'length')"
        (.ok ⟨true, .ok (some ⟨none, some 3, none⟩)⟩)
        { Page.init with file := some ⟨"listings.csv", 1536, "text/csv"⟩,
                         previewData := [previewOf ⟨"listings.csv", 1536, "text/csv"⟩] }).previewData
      = [] := by
  decide

/-! ## C5 and C6: delete-all -/

/-- C5. With the confirmation accepted, a successful response `{deletedCount: d}` leaves
the upload history empty, no selected file, an empty preview and the message
`Successfully deleted d listings and upload history` of type `success`; a response that
is not ok, a rejected request, or an unreadable body (unparseable, or `null`) leaves
history, selected file, preview, progress and flags as they were and sets a message of
type `error`, writing nothing but the message and its timeout. -/
theorem C5_delete_all (p : Page) (d : Nat) :
    ((handleDeleteAllDone (.ok ⟨true, .ok (some ⟨some d⟩)⟩) (handleDeleteAll true p)).uploadHistory = []
      ∧ (handleDeleteAllDone (.ok ⟨true, .ok (some ⟨some d⟩)⟩) (handleDeleteAll true p)).file = none
      ∧ (handleDeleteAllDone (.ok ⟨true, .ok (some ⟨some d⟩)⟩) (handleDeleteAll true p)).previewData = []
      ∧ (handleDeleteAllDone (.ok ⟨true, .ok (some ⟨some d⟩)⟩) (handleDeleteAll true p)).message
          = ⟨"Successfully deleted " ++ toString d ++ " listings and upload history", "success"⟩)
    ∧ (∀ (r : Settled DeleteResponse),
        ((∃ m, r = .error m) ∨ (∃ j, r = .ok ⟨false, j⟩) ∨ (∃ m, r = .ok ⟨true, .error m⟩)
          ∨ r = .ok ⟨true, .ok none⟩) →
        ∃ text : String,
          handleDeleteAllDone r (handleDeleteAll true p)
            = { handleDeleteAll true p with
                  message := ⟨text, "error"⟩, timeouts := p.timeouts ++ [p.now + 5000] }
          ∧ (handleDeleteAllDone r (handleDeleteAll true p)).uploadHistory = p.uploadHistory
          ∧ (handleDeleteAllDone r (handleDeleteAll true p)).file = p.file
          ∧ (handleDeleteAllDone r (handleDeleteAll true p)).previewData = p.previewData) := by
  constructor
  · simp [handleDeleteAllDone, handleDeleteAll, setPreviewData, setFile, setUploadHistory,
      showMessage, setTimeout, setMessage, fetch, showNat, String.append_assoc]
  · intro r h
    rcases h with ⟨m, rfl⟩ | ⟨j, rfl⟩ | ⟨m, rfl⟩ | rfl
    · exact ⟨"Error deleting data", by
        simp [handleDeleteAllDone, handleDeleteAll, showMessage, setTimeout, setMessage, fetch]⟩
    · exact ⟨"Failed to delete data", by
        simp [handleDeleteAllDone, handleDeleteAll, showMessage, setTimeout, setMessage, fetch]⟩
    · exact ⟨"Error deleting data", by
        simp [handleDeleteAllDone, handleDeleteAll, showMessage, setTimeout, setMessage, fetch]⟩
    · exact ⟨"Error deleting data", by
        simp [handleDeleteAllDone, handleDeleteAll, showMessage, setTimeout, setMessage, fetch]⟩

/-- C5 at a page with a file, a preview and one history entry, for `deletedCount` 7 and
for a response that is not ok. -/
theorem C5_delete_all_witness :
    (handleDeleteAllDone (.ok ⟨true, .ok (some ⟨some 7⟩)⟩)
        (handleDeleteAll true
          { Page.init with file := some ⟨"a.csv", 2048, "text/csv"⟩,
                           previewData := [previewOf ⟨"a.csv", 2048, "text/csv"⟩],
                           uploadHistory := [⟨"a.csv", "2024-01-01", "csv", 2048, "completed", 3, 3⟩]
          })).message
      = ⟨"Successfully deleted 7 listings and upload history", "success"⟩
    ∧ (handleDeleteAllDone (.ok ⟨false, .error "x"⟩)
        (handleDeleteAll true { Page.init with file := some ⟨"a.csv", 2048, "text/csv"⟩ })).file
      = some ⟨"a.csv", 2048, "text/csv"⟩ :=
  ⟨(C5_delete_all _ 7).1.2.2.2,
   let ⟨_, h⟩ := (C5_delete_all { Page.init with file := some ⟨"a.csv", 2048, "text/csv"⟩ } 0).2
      (.ok ⟨false, .error "x"⟩) (Or.inr (Or.inl ⟨_, rfl⟩))
   h.2.2.1⟩

/-- C6. When the confirmation prompt is declined, `handleDeleteAll` returns the page as it
was: no request is issued, nothing is scheduled, and selected file, preview, message,
progress, uploading flag and upload history are unchanged. When it is accepted, exactly
the `DELETE` request to the clear-all endpoint is issued. -/
theorem C6_delete_all_declined (p : Page) :
    handleDeleteAll false p = p
    ∧ (handleDeleteAll false p).requests = p.requests
    ∧ (handleDeleteAll false p).file = p.file
    ∧ (handleDeleteAll false p).previewData = p.previewData
    ∧ (handleDeleteAll false p).message = p.message
    ∧ (handleDeleteAll false p).uploadProgress = p.uploadProgress
    ∧ (handleDeleteAll false p).uploading = p.uploading
    ∧ (handleDeleteAll false p).uploadHistory = p.uploadHistory
    ∧ (handleDeleteAll true p).requests
        = p.requests ++ [⟨"DELETE", "/api/directory/clear-all", none⟩] := by
  simp [handleDeleteAll, fetch]

/-! ## C7: the text taken from a response that is not ok -/

/-- C7, as the code has it. For a response that is not ok, after an upload from a page
with a selected file and after a test parse: when the body is an object with a non-empty
`error` field `e` the message is the operation's heading followed by `e`; when the body
is not `null` and its `error` field is absent or empty it is the heading followed by the
generic text (`Upload failed`, `Test parse failed`); when the body cannot be parsed it is
the heading followed by the text of the parser's error; when the body is `null` it is the
heading followed by the text of the runtime error. The type is `error` in every case. -/
theorem C7_error_body_text (tyErr : String) (p : Page) (f : File) :
    ((∀ (e : String) (c : Option Nat) (es : Option (List RowError)), e ≠ "" →
        (handleSubmitRun tyErr (.ok ⟨false, .ok (some ⟨some e, c, es⟩)⟩)
            (setFile (some f) p)).message
          = ⟨"Upload failed: " ++ e, "error"⟩)
      ∧ (∀ (e : Option String) (c : Option Nat) (es : Option (List RowError)),
          e = none ∨ e = some "" →
          (handleSubmitRun tyErr (.ok ⟨false, .ok (some ⟨e, c, es⟩)⟩)
              (setFile (some f) p)).message
            = ⟨"Upload failed: Upload failed", "error"⟩)
      ∧ (∀ m : String,
          (handleSubmitRun tyErr (.ok ⟨false, .error m⟩) (setFile (some f) p)).message
            = ⟨"Upload failed: " ++ m, "error"⟩)
      ∧ (handleSubmitRun tyErr (.ok ⟨false, .ok none⟩) (setFile (some f) p)).message
            = ⟨"Upload failed: " ++ tyErr, "error"⟩)
    ∧ ((∀ (b : ParseBody) (e : String), b.error = some e → e ≠ "" →
        (handleTestParseDone tyErr (.ok ⟨false, .ok (some b)⟩) p).message
          = ⟨"Test parse failed: " ++ e, "error"⟩)
      ∧ (∀ b : ParseBody, b.error = none ∨ b.error = some "" →
          (handleTestParseDone tyErr (.ok ⟨false, .ok (some b)⟩) p).message
            = ⟨"Test parse failed: Test parse failed", "error"⟩)
      ∧ (∀ m : String,
          (handleTestParseDone tyErr (.ok ⟨false, .error m⟩) p).message
            = ⟨"Test parse failed: " ++ m, "error"⟩)
      ∧ (handleTestParseDone tyErr (.ok ⟨false, .ok none⟩) p).message
            = ⟨"Test parse failed: " ++ tyErr, "error"⟩) := by
  refine ⟨⟨?_, ?_, ?_, ?_⟩, ?_, ?_, ?_, ?_⟩
  · intro e c es he
    simp [handleSubmitRun, setFile, handleSubmitParsed, submitFinally_submitCatch, strOr, he]
  · rintro e c es (rfl | rfl) <;>
      simp [handleSubmitRun, setFile, handleSubmitParsed, submitFinally_submitCatch, strOr]
  · intro m
    simp [handleSubmitRun, setFile, handleSubmitParsed, submitFinally_submitCatch]
  · simp [handleSubmitRun, setFile, handleSubmitParsed, submitFinally_submitCatch]
  · intro b e hb he
    simp [handleTestParseDone, testParseCatch, showMessage, setTimeout, setMessage, strOr, hb, he]
  · rintro b (hb | hb) <;>
      simp [handleTestParseDone, testParseCatch, showMessage, setTimeout, setMessage, strOr, hb]
  · intro m
    simp [handleTestParseDone, testParseCatch, showMessage, setTimeout, setMessage]
  · simp [handleTestParseDone, testParseCatch, showMessage, setTimeout, setMessage]

/-- C7 at the body `{error: "Missing COMPANY column"}` for an upload, at the body
`{}` for a test parse, and at the body `null` for an upload. -/
theorem C7_error_body_text_witness :
    (handleSubmitRun "" (.ok ⟨false, .ok (some ⟨some "Missing COMPANY column", none, none⟩)⟩)
        (setFile (some ⟨"listings.csv", 1536, "text/csv"⟩) Page.init)).message
      = ⟨"Upload failed: Missing COMPANY column", "error"⟩
    ∧ (handleTestParseDone ""
        (.ok ⟨false, .ok (some ⟨none, none, none, none, none, none, none, ""⟩)⟩)
        Page.init).message
      = ⟨"Test parse failed: Test parse failed", "error"⟩
    ∧ (handleSubmitRun "Cannot read properties of null (reading 'error')"
        (.ok ⟨false, .ok none⟩)
        (setFile (some ⟨"listings.csv", 1536, "text/csv"⟩) Page.init)).message
      = ⟨"Upload failed: Cannot read properties of null (reading 'error')", "error"⟩ :=
  ⟨(C7_error_body_text "" Page.init ⟨"listings.csv", 1536, "text/csv"⟩).1.1
      "Missing COMPANY column" none none (by decide),
   (C7_error_body_text "" Page.init ⟨"listings.csv", 1536, "text/csv"⟩).2.2.1
      ⟨none, none, none, none, none, none, none, ""⟩ (Or.inl rfl),
   (C7_error_body_text "Cannot read properties of null (reading 'error')" Page.init
      ⟨"listings.csv", 1536, "text/csv"⟩).1.2.2.2⟩

/-- C7 as stated fails: for a response that is not ok whose body is not JSON, with the
parser's error text `Unexpected token < in JSON at position 0`, the message carries that
text and not the generic one, after an upload and after a test parse alike; it differs
from the message shown for a body without an `error` field. A body whose `error` field
is the empty string gives the generic text. -/
theorem C7_counterexample :
    ((handleSubmitRun "" (.ok ⟨false, .error "Unexpected token < in JSON at position 0"⟩)
        (setFile (some ⟨"listings.csv", 1536, "text/csv"⟩) Page.init)).message
        = ⟨"Upload failed: Unexpected token < in JSON at position 0", "error"⟩
      ∧ (handleSubmitRun "" (.ok ⟨false, .error "Unexpected token < in JSON at position 0"⟩)
          (setFile (some ⟨"listings.csv", 1536, "text/csv"⟩) Page.init)).message
        ≠ (handleSubmitRun "" (.ok ⟨false, .ok (some ⟨none, none, none⟩)⟩)
          (setFile (some ⟨"listings.csv", 1536, "text/csv"⟩) Page.init)).message)
    ∧ ((handleTestParseDone "" (.ok ⟨false, .error "Unexpected token < in JSON at position 0"⟩)
        (setFile (some ⟨"listings.csv", 1536, "text/csv"⟩) Page.init)).message
        = ⟨"Test parse failed: Unexpected token < in JSON at position 0", "error"⟩
      ∧ (handleTestParseDone "" (.ok ⟨false, .error "Unexpected token < in JSON at position 0"⟩)
          (setFile (some ⟨"listings.csv", 1536, "text/csv"⟩) Page.init)).message
        ≠ (handleTestParseDone ""
            (.ok ⟨false, .ok (some ⟨none, none, none, none, none, none, none, ""⟩)⟩)
          (setFile (some ⟨"listings.csv", 1536, "text/csv"⟩) Page.init)).message)
    ∧ (handleSubmitRun "" (.ok ⟨false, .ok (some ⟨some "", none, none⟩)⟩)
        (setFile (some ⟨"listings.csv", 1536, "text/csv"⟩) Page.init)).message
        = ⟨"Upload failed: Upload failed", "error"⟩ := by
  decide

/-! ## C10: the progress interval after a submission -/

/-- The last step of `handleSubmit` leaves the live intervals as they are and ends with
progress 0. -/
theorem handleSubmitParsed_intervals_progress (tyErr : String) (res : UploadResponse)
    (q : Page) :
    (handleSubmitParsed tyErr res q).intervals = q.intervals
    ∧ (handleSubmitParsed tyErr res q).uploadProgress = 0 := by
  obtain ⟨ok, json⟩ := res
  cases ok <;> rcases json with m | (_ | ⟨e, c, _ | es⟩) <;>
    simp [handleSubmitParsed, submitFinally_submitCatch, setPreviewData, setFile]
  by_cases h : es.length > 0 <;>
    simp [h, submitFinally, setUploadProgress, setUploading, alert,
      fetchUploadHistory, fetch, setLoadingHistory, showMessage, setTimeout, setMessage]

/-- C10 fails on the code when `fetch` rejects. After a whole run of `handleSubmit` whose
`fetch` rejects, the progress is 0 but the interval the run started is still live, and
its next tick moves the progress to 10; from the initial page with `listings.csv`
selected, nine ticks after the run bring it to 90. When `fetch` settles with a response,
ok or not, the interval is no longer live after the run. -/
theorem C10_interval_survives_rejected_fetch (tyErr : String) (p : Page) (f : File)
    (m : String) :
    ((handleSubmitRun tyErr (.error m) (setFile (some f) p)).uploadProgress = 0
      ∧ p.nextInterval ∈ (handleSubmitRun tyErr (.error m) (setFile (some f) p)).intervals
      ∧ (progressTick p.nextInterval
          (handleSubmitRun tyErr (.error m) (setFile (some f) p))).uploadProgress = 10)
    ∧ ((progressTick 0)^[9]
        (handleSubmitRun "" (.error "Failed to fetch")
          (setFile (some ⟨"listings.csv", 1536, "text/csv"⟩) Page.init))).uploadProgress = 90
    ∧ (∀ res : UploadResponse,
        (handleSubmitRun tyErr (.ok res) (setFile (some f) p)).uploadProgress = 0
        ∧ p.nextInterval ∉ (handleSubmitRun tyErr (.ok res) (setFile (some f) p)).intervals) := by
  refine ⟨?_, by decide, ?_⟩
  · simp [handleSubmitRun, setFile, handleSubmitFetched, submitFinally_submitCatch,
      handleSubmit, fetch, setInterval, setUploadProgress, setUploading, progressTick]
  · intro res
    have h := handleSubmitParsed_intervals_progress tyErr res
      (handleSubmitFetched (setFile (some f) p).nextInterval (.ok res)
        (handleSubmit (setFile (some f) p)))
    have hr : handleSubmitRun tyErr (.ok res) (setFile (some f) p)
        = handleSubmitParsed tyErr res
            (handleSubmitFetched (setFile (some f) p).nextInterval (.ok res)
              (handleSubmit (setFile (some f) p))) := by
      simp [handleSubmitRun, setFile]
    rw [hr]
    refine ⟨h.2, ?_⟩
    rw [h.1]
    simp [handleSubmitFetched, clearInterval, setUploadProgress, setFile]

/-! ## C9: selected file and preview over all event orders -/

/-- A step that keeps the readers, and keeps or clears the selected file and the preview,
keeps `SelectionInv`. -/
theorem SelectionInv.of_frame {p q : Page} (h : SelectionInv p)
    (hr : q.readers = p.readers) (hf : q.file = p.file ∨ q.file = none)
    (hp : q.previewData = p.previewData ∨ q.previewData = []) : SelectionInv q := by
  obtain ⟨h1, h2, h3⟩ := h
  refine ⟨by rw [hr]; exact h1, ?_, ?_⟩
  · intro f hq
    rcases hf with hf | hf
    · exact h2 f (hf ▸ hq)
    · rw [hf] at hq; cases hq
  · rcases hp with hp | hp
    · rw [hp]; exact h3
    · exact Or.inl hp

/-- Selecting or dropping a file keeps `SelectionInv`. -/
theorem SelectionInv.select {p : Page} (h : SelectionInv p) (c : Option File) :
    SelectionInv (handleFileChange c p) ∧ SelectionInv (handleDrop c p) := by
  have key : ∀ q : Page, (q = handleFileChange c p ∨ q = handleDrop c p) → SelectionInv q := by
    intro q hq
    cases c with
    | none =>
      have : q = p := by rcases hq with rfl | rfl <;> rfl
      exact this ▸ h
    | some f =>
      by_cases hm : nameMatches f.name = true
      · have hq2 : q = previewFile f (setFile (some f) p) := by
          rcases hq with rfl | rfl <;> simp [handleFileChange, handleDrop, hm]
        subst hq2
        obtain ⟨h1, h2, h3⟩ := h
        refine ⟨?_, ?_, h3⟩
        · intro g hg
          simp only [previewFile, setFile, List.mem_append, List.mem_singleton] at hg
          rcases hg with hg | rfl
          · exact h1 g hg
          · exact hm
        · intro g hg
          simp only [previewFile, setFile, Option.some.injEq] at hg
          exact hg ▸ hm
      · have hq2 : q = showMessage rejectText "error" p := by
          rcases hq with rfl | rfl <;> simp [handleFileChange, handleDrop, hm]
        subst hq2
        exact h.of_frame rfl (Or.inl rfl) (Or.inl rfl)
  exact ⟨key _ (Or.inl rfl), key _ (Or.inr rfl)⟩

/-- The last step of `handleSubmit` keeps the readers and keeps or clears the selected
file and the preview. -/
theorem handleSubmitParsed_frame (tyErr : String) (res : UploadResponse) (q : Page) :
    (handleSubmitParsed tyErr res q).readers = q.readers
    ∧ ((handleSubmitParsed tyErr res q).file = q.file
        ∨ (handleSubmitParsed tyErr res q).file = none)
    ∧ ((handleSubmitParsed tyErr res q).previewData = q.previewData
        ∨ (handleSubmitParsed tyErr res q).previewData = []) := by
  obtain ⟨ok, json⟩ := res
  cases ok <;> rcases json with m | (_ | ⟨e, c, _ | es⟩) <;>
    simp [handleSubmitParsed, submitFinally_submitCatch, setPreviewData, setFile]
  by_cases h : es.length > 0 <;>
    simp [h, submitFinally, setUploadProgress, setUploading, alert,
      fetchUploadHistory, fetch, setLoadingHistory, showMessage, setTimeout, setMessage]

/-- Every event keeps `SelectionInv`. -/
theorem SelectionInv.step {p q : Page} (h : SelectionInv p) (hs : Step p q) :
    SelectionInv q := by
  cases hs with
  | mount => exact h.of_frame rfl (Or.inl rfl) (Or.inl rfl)
  | fileChange c => exact (h.select c).1
  | drop c => exact (h.select c).2
  | readerLoad f hf =>
    obtain ⟨h1, h2, _⟩ := h
    refine ⟨?_, h2, Or.inr ⟨f, h1 f hf, rfl⟩⟩
    intro g hg
    exact h1 g (List.mem_of_mem_erase hg)
  | submit =>
    refine h.of_frame ?_ (Or.inl ?_) (Or.inl ?_) <;>
      (unfold handleSubmit; split <;> rfl)
  | tick id hid =>
    refine h.of_frame ?_ (Or.inl ?_) (Or.inl ?_) <;>
      (unfold progressTick; split <;> rfl)
  | submitFetched id r =>
    refine h.of_frame ?_ (Or.inl ?_) (Or.inl ?_) <;>
      (unfold handleSubmitFetched; split <;> rfl)
  | submitParsed tyErr res =>
    obtain ⟨a, b, c⟩ := handleSubmitParsed_frame tyErr res p
    exact h.of_frame a b c
  | testParse =>
    refine h.of_frame ?_ (Or.inl ?_) (Or.inl ?_) <;>
      (unfold handleTestParse; split <;> rfl)
  | testParseDone tyErr r =>
    refine h.of_frame ?_ (Or.inl ?_) (Or.inl ?_) <;>
      (unfold handleTestParseDone; repeat (first | rfl | split))
  | deleteAll confirmed =>
    refine h.of_frame ?_ (Or.inl ?_) (Or.inl ?_) <;>
      (unfold handleDeleteAll; split <;> rfl)
  | deleteAllDone r =>
    refine h.of_frame ?_ ?_ ?_ <;>
      (unfold handleDeleteAllDone; repeat (first | exact Or.inl rfl | exact Or.inr rfl | rfl | split))
  | refresh => exact h.of_frame rfl (Or.inl rfl) (Or.inl rfl)
  | refreshDone r =>
    refine h.of_frame ?_ (Or.inl ?_) (Or.inl ?_) <;>
      (unfold fetchUploadHistoryDone; repeat (first | rfl | split))
  | timeout t _ _ => exact h.of_frame rfl (Or.inl rfl) (Or.inl rfl)
  | dismiss => exact h.of_frame rfl (Or.inl rfl) (Or.inl rfl)
  | advance dt => exact h.of_frame rfl (Or.inl rfl) (Or.inl rfl)

/-- Every reachable page satisfies `SelectionInv`. -/
theorem SelectionInv.of_reachable {p : Page} (h : Reachable p) : SelectionInv p := by
  induction h with
  | init => exact ⟨by simp [Page.init], by simp [Page.init], Or.inl rfl⟩
  | step _ hs ih => exact ih.step hs

/-- Being among more files keeps `SelectionInvOf`. -/
theorem SelectionInvOf.mono {hs hs2 : List File} {p : Page} (h : SelectionInvOf hs p)
    (hsub : ∀ f, f ∈ hs → f ∈ hs2) : SelectionInvOf hs2 p := by
  obtain ⟨h1, h2, h3⟩ := h
  refine ⟨fun f hf => ⟨(h1 f hf).1, hsub f (h1 f hf).2⟩,
    fun f hf => ⟨(h2 f hf).1, hsub f (h2 f hf).2⟩, ?_⟩
  rcases h3 with h3 | ⟨f, hf, hm, h3⟩
  · exact Or.inl h3
  · exact Or.inr ⟨f, hsub f hf, hm, h3⟩

/-- A step that keeps the readers, and keeps or clears the selected file and the preview,
keeps `SelectionInvOf`. -/
theorem SelectionInvOf.keeps_frame {hs : List File} {p q : Page} (h : SelectionInvOf hs p)
    (hr : q.readers = p.readers) (hf : q.file = p.file ∨ q.file = none)
    (hp : q.previewData = p.previewData ∨ q.previewData = []) : SelectionInvOf hs q := by
  obtain ⟨h1, h2, h3⟩ := h
  refine ⟨by rw [hr]; exact h1, ?_, ?_⟩
  · intro f hq
    rcases hf with hf | hf
    · exact h2 f (hf ▸ hq)
    · rw [hf] at hq; cases hq
  · rcases hp with hp | hp
    · rw [hp]; exact h3
    · exact Or.inl hp

/-- Passing a candidate to `handleFileChange` or `handleDrop` keeps `SelectionInvOf`, the
candidate joining the files. -/
theorem SelectionInvOf.candidate {hs : List File} {p : Page} (h : SelectionInvOf hs p)
    (c : Option File) :
    SelectionInvOf (hs ++ c.toList) (handleFileChange c p)
    ∧ SelectionInvOf (hs ++ c.toList) (handleDrop c p) := by
  have hmono : SelectionInvOf (hs ++ c.toList) p :=
    h.mono (fun f hf => List.mem_append_left _ hf)
  have key : ∀ q : Page, (q = handleFileChange c p ∨ q = handleDrop c p) →
      SelectionInvOf (hs ++ c.toList) q := by
    intro q hq
    cases c with
    | none =>
      have : q = p := by rcases hq with rfl | rfl <;> rfl
      exact this ▸ hmono
    | some f =>
      have hfin : f ∈ hs ++ (some f).toList := by simp
      by_cases hm : nameMatches f.name = true
      · have hq2 : q = previewFile f (setFile (some f) p) := by
          rcases hq with rfl | rfl <;> simp [handleFileChange, handleDrop, hm]
        subst hq2
        obtain ⟨h1, h2, h3⟩ := hmono
        refine ⟨?_, ?_, h3⟩
        · intro g hg
          simp only [previewFile, setFile, List.mem_append, List.mem_singleton] at hg
          rcases hg with hg | rfl
          · exact h1 g hg
          · exact ⟨hm, hfin⟩
        · intro g hg
          simp only [previewFile, setFile, Option.some.injEq] at hg
          exact hg ▸ ⟨hm, hfin⟩
      · have hq2 : q = showMessage rejectText "error" p := by
          rcases hq with rfl | rfl <;> simp [handleFileChange, handleDrop, hm]
        subst hq2
        exact hmono.keeps_frame rfl (Or.inl rfl) (Or.inl rfl)
  exact ⟨key _ (Or.inl rfl), key _ (Or.inr rfl)⟩

/-- Every enabled event keeps `SelectionInvOf`, its candidate file joining the files. -/
theorem SelectionInvOf.applyEvent {hs : List File} {p : Page} (h : SelectionInvOf hs p)
    (e : Event) (he : eventEnabled e p = true) :
    SelectionInvOf (hs ++ (chosenFile e).toList) (applyEvent e p) := by
  cases e with
  | fileChange c => exact (h.candidate c).1
  | drop c => exact (h.candidate c).2
  | readerLoad f =>
    have hf : f ∈ p.readers := by simpa [eventEnabled] using he
    have h0 : SelectionInvOf (hs ++ (chosenFile (.readerLoad f)).toList) p :=
      h.mono (fun f hf => List.mem_append_left _ hf)
    obtain ⟨h1, h2, _⟩ := h0
    refine ⟨fun g hg => h1 g (List.mem_of_mem_erase hg), h2,
      Or.inr ⟨f, (h1 f hf).2, (h1 f hf).1, rfl⟩⟩
  | mount => simpa [chosenFile] using h.keeps_frame rfl (Or.inl rfl) (Or.inl rfl)
  | submit =>
    have hq : SelectionInvOf hs (handleSubmit p) := by
      refine h.keeps_frame ?_ (Or.inl ?_) (Or.inl ?_) <;> (unfold handleSubmit; split <;> rfl)
    simpa [chosenFile, AdminDirectoryUpload.applyEvent] using hq
  | tick id =>
    have hq : SelectionInvOf hs (progressTick id p) := by
      refine h.keeps_frame ?_ (Or.inl ?_) (Or.inl ?_) <;> (unfold progressTick; split <;> rfl)
    simpa [chosenFile, AdminDirectoryUpload.applyEvent] using hq
  | submitFetched id r =>
    have hq : SelectionInvOf hs (handleSubmitFetched id r p) := by
      refine h.keeps_frame ?_ (Or.inl ?_) (Or.inl ?_) <;>
        (unfold handleSubmitFetched; split <;> rfl)
    simpa [chosenFile, AdminDirectoryUpload.applyEvent] using hq
  | submitParsed tyErr res =>
    obtain ⟨a, b, c⟩ := handleSubmitParsed_frame tyErr res p
    simpa [chosenFile, AdminDirectoryUpload.applyEvent] using h.keeps_frame a b c
  | testParse =>
    have hq : SelectionInvOf hs (handleTestParse p) := by
      refine h.keeps_frame ?_ (Or.inl ?_) (Or.inl ?_) <;> (unfold handleTestParse; split <;> rfl)
    simpa [chosenFile, AdminDirectoryUpload.applyEvent] using hq
  | testParseDone tyErr r =>
    have hq : SelectionInvOf hs (handleTestParseDone tyErr r p) := by
      refine h.keeps_frame ?_ (Or.inl ?_) (Or.inl ?_) <;>
        (unfold handleTestParseDone; repeat (first | rfl | split))
    simpa [chosenFile, AdminDirectoryUpload.applyEvent] using hq
  | deleteAll confirmed =>
    have hq : SelectionInvOf hs (handleDeleteAll confirmed p) := by
      refine h.keeps_frame ?_ (Or.inl ?_) (Or.inl ?_) <;> (unfold handleDeleteAll; split <;> rfl)
    simpa [chosenFile, AdminDirectoryUpload.applyEvent] using hq
  | deleteAllDone r =>
    have hq : SelectionInvOf hs (handleDeleteAllDone r p) := by
      refine h.keeps_frame ?_ ?_ ?_ <;>
        (unfold handleDeleteAllDone
         repeat (first | exact Or.inl rfl | exact Or.inr rfl | rfl | split))
    simpa [chosenFile, AdminDirectoryUpload.applyEvent] using hq
  | refresh => simpa [chosenFile] using h.keeps_frame rfl (Or.inl rfl) (Or.inl rfl)
  | refreshDone r =>
    have hq : SelectionInvOf hs (fetchUploadHistoryDone r p) := by
      refine h.keeps_frame ?_ (Or.inl ?_) (Or.inl ?_) <;>
        (unfold fetchUploadHistoryDone; repeat (first | rfl | split))
    simpa [chosenFile, AdminDirectoryUpload.applyEvent] using hq
  | timeout => simpa [chosenFile] using h.keeps_frame rfl (Or.inl rfl) (Or.inl rfl)
  | dismiss => simpa [chosenFile] using h.keeps_frame rfl (Or.inl rfl) (Or.inl rfl)
  | advance dt => simpa [chosenFile] using h.keeps_frame rfl (Or.inl rfl) (Or.inl rfl)

/-- A run of enabled events keeps `SelectionInvOf`, its candidate files joining the
files. -/
theorem SelectionInvOf.runEvents (es : List Event) :
    ∀ (hs : List File) (p q : Page), SelectionInvOf hs p → runEvents es p = some q →
      SelectionInvOf (hs ++ chosenFiles es) q := by
  induction es with
  | nil =>
    intro hs p q h hq
    simp only [AdminDirectoryUpload.runEvents, Option.some.injEq] at hq
    subst hq
    simpa [chosenFiles] using h
  | cons e es ih =>
    intro hs p q h hq
    by_cases he : eventEnabled e p = true
    · simp only [AdminDirectoryUpload.runEvents, he, if_true] at hq
      have h2 := ih _ _ _ (h.applyEvent e he) hq
      refine h2.mono (fun f hf => ?_)
      simp only [chosenFiles, List.filterMap_cons, List.mem_append] at hf ⊢
      rcases hf with (hf | hf) | hf
      · exact Or.inl hf
      · refine Or.inr ?_
        cases hc : chosenFile e with
        | none => rw [hc] at hf; cases hf
        | some g =>
          rw [hc] at hf
          simp only [Option.toList, List.mem_singleton] at hf
          simp [hf]
      · refine Or.inr ?_
        cases hc : chosenFile e with
        | none => exact hf
        | some g => simp [hf]
    · simp [AdminDirectoryUpload.runEvents, he] at hq

/-- An enabled event is a `Step`, and every `Step` is an enabled event. -/
theorem step_iff_event (p q : Page) :
    Step p q ↔ ∃ e, eventEnabled e p = true ∧ q = applyEvent e p := by
  constructor
  · intro h
    cases h with
    | mount => exact ⟨.mount, rfl, rfl⟩
    | fileChange c => exact ⟨.fileChange c, rfl, rfl⟩
    | drop c => exact ⟨.drop c, rfl, rfl⟩
    | readerLoad f hf => exact ⟨.readerLoad f, by simpa [eventEnabled] using hf, rfl⟩
    | submit => exact ⟨.submit, rfl, rfl⟩
    | tick id hid => exact ⟨.tick id, by simpa [eventEnabled] using hid, rfl⟩
    | submitFetched id r => exact ⟨.submitFetched id r, rfl, rfl⟩
    | submitParsed tyErr res => exact ⟨.submitParsed tyErr res, rfl, rfl⟩
    | testParse => exact ⟨.testParse, rfl, rfl⟩
    | testParseDone tyErr r => exact ⟨.testParseDone tyErr r, rfl, rfl⟩
    | deleteAll confirmed => exact ⟨.deleteAll confirmed, rfl, rfl⟩
    | deleteAllDone r => exact ⟨.deleteAllDone r, rfl, rfl⟩
    | refresh => exact ⟨.refresh, rfl, rfl⟩
    | refreshDone r => exact ⟨.refreshDone r, rfl, rfl⟩
    | timeout t h1 h2 => exact ⟨.timeout, by simp [eventEnabled, h1, h2], rfl⟩
    | dismiss => exact ⟨.dismiss, rfl, rfl⟩
    | advance dt => exact ⟨.advance dt, rfl, rfl⟩
  · rintro ⟨e, he, rfl⟩
    cases e with
    | mount => exact .mount p
    | fileChange c => exact .fileChange p c
    | drop c => exact .drop p c
    | readerLoad f => exact .readerLoad p f (by simpa [eventEnabled] using he)
    | submit => exact .submit p
    | tick id => exact .tick p id (by simpa [eventEnabled] using he)
    | submitFetched id r => exact .submitFetched p id r
    | submitParsed tyErr res => exact .submitParsed p tyErr res
    | testParse => exact .testParse p
    | testParseDone tyErr r => exact .testParseDone p tyErr r
    | deleteAll confirmed => exact .deleteAll p confirmed
    | deleteAllDone r => exact .deleteAllDone p r
    | refresh => exact .refresh p
    | refreshDone r => exact .refreshDone p r
    | timeout =>
      cases ht : p.timeouts.head? with
      | none => simp [eventEnabled, ht] at he
      | some t => exact .timeout p t ht (by simpa [eventEnabled, ht] using he)
    | dismiss => exact .dismiss p
    | advance dt => exact .advance p dt

/-- Running a list of events and then one more. -/
theorem runEvents_append_singleton (es : List Event) (e : Event) :
    ∀ p, runEvents (es ++ [e]) p
      = (runEvents es p).bind (fun q => if eventEnabled e q then some (applyEvent e q) else none) := by
  induction es with
  | nil => intro p; simp [runEvents]
  | cons a es ih =>
    intro p
    by_cases ha : eventEnabled a p = true
    · simp [runEvents, ha, ih]
    · simp [runEvents, ha]

/-- The reachable pages are the results of the runs of enabled events from the initial
page. -/
theorem reachable_iff_runEvents (p : Page) :
    Reachable p ↔ ∃ es, runEvents es Page.init = some p := by
  constructor
  · intro h
    induction h with
    | init => exact ⟨[], rfl⟩
    | @step a b _ hs ih =>
      obtain ⟨es, hes⟩ := ih
      obtain ⟨e, he, rfl⟩ := (step_iff_event a b).mp hs
      exact ⟨es ++ [e], by simp [runEvents_append_singleton, hes, he]⟩
  · rintro ⟨es, hes⟩
    induction es using List.reverseRecOn generalizing p with
    | nil =>
      simp only [runEvents, Option.some.injEq] at hes
      exact hes ▸ .init
    | append_singleton es e ih =>
      rw [runEvents_append_singleton] at hes
      cases hq : runEvents es Page.init with
      | none => simp [hq] at hes
      | some q =>
        by_cases he : eventEnabled e q = true
        · simp only [hq, Option.some_bind, he, if_true, Option.some.injEq] at hes
          exact hes ▸ .step (ih q hq) ((step_iff_event _ _).mpr ⟨e, he, rfl⟩)
        · simp [hq, he] at hes

/-- C9, as the code has it. The reachable pages are the results of the runs of enabled
events from the initial page, and after every such run: the selected file, if any, has an
accepted name and was passed to `handleFileChange` or `handleDrop` by an event of the
run; the preview is empty or is the single entry with the name and size text of a file
with an accepted name that was passed to `handleFileChange` or `handleDrop` by an event
of the run, which need not be the selected file. Right after the read of the selected file
completes, that file is still selected and the preview is the entry with its name and
size text. Right after the last step of a successful upload, and right after a successful
delete-all, no file is selected and the preview is empty. -/
theorem C9_preview_invariant :
    (∀ p, Reachable p ↔ ∃ es, runEvents es Page.init = some p)
    ∧ (∀ es p, runEvents es Page.init = some p →
        (∀ f, p.file = some f → nameMatches f.name = true ∧ f ∈ chosenFiles es)
        ∧ (p.previewData = []
            ∨ ∃ (f : File) (e : PreviewEntry), f ∈ chosenFiles es
                ∧ nameMatches f.name = true ∧ p.previewData = [e] ∧ e.fileName = f.name
                ∧ e.fileSize = toFixed2 f.size ++ " KB"))
    ∧ (∀ p f, p.file = some f →
        (readerOnload f p).file = some f
        ∧ (∃ e : PreviewEntry, (readerOnload f p).previewData = [e] ∧ e.fileName = f.name
            ∧ e.fileSize = toFixed2 f.size ++ " KB")
        ∧ PreviewConsistent (readerOnload f p))
    ∧ (∀ p tyErr e c es,
        (handleSubmitParsed tyErr ⟨true, .ok (some ⟨e, c, some es⟩)⟩ p).file = none
        ∧ (handleSubmitParsed tyErr ⟨true, .ok (some ⟨e, c, some es⟩)⟩ p).previewData = []
        ∧ PreviewConsistent (handleSubmitParsed tyErr ⟨true, .ok (some ⟨e, c, some es⟩)⟩ p))
    ∧ (∀ p d,
        (handleDeleteAllDone (.ok ⟨true, .ok (some d)⟩) p).file = none
        ∧ (handleDeleteAllDone (.ok ⟨true, .ok (some d)⟩) p).previewData = []
        ∧ PreviewConsistent (handleDeleteAllDone (.ok ⟨true, .ok (some d)⟩) p)) := by
  refine ⟨reachable_iff_runEvents, ?_, ?_, ?_, ?_⟩
  · intro es p hp
    have h0 : SelectionInvOf [] Page.init :=
      ⟨by simp [Page.init], by simp [Page.init], Or.inl rfl⟩
    obtain ⟨_, h2, h3⟩ := h0.runEvents es [] Page.init p hp
    simp only [List.nil_append] at h2 h3
    refine ⟨h2, ?_⟩
    rcases h3 with h3 | ⟨f, hf, hm, h3⟩
    · exact Or.inl h3
    · exact Or.inr ⟨f, previewOf f, hf, hm, h3, rfl, rfl⟩
  · intro p f hf
    exact ⟨hf, ⟨previewOf f, rfl, rfl, rfl⟩, Or.inr ⟨f, previewOf f, hf, rfl, rfl, rfl⟩⟩
  · intro p tyErr e c es
    have h : (handleSubmitParsed tyErr ⟨true, .ok (some ⟨e, c, some es⟩)⟩ p).file = none
        ∧ (handleSubmitParsed tyErr ⟨true, .ok (some ⟨e, c, some es⟩)⟩ p).previewData = [] := by
      by_cases h : es.length > 0 <;>
        simp [handleSubmitParsed, h, submitFinally, setUploadProgress, setUploading, alert,
          fetchUploadHistory, fetch, setLoadingHistory, showMessage, setTimeout, setMessage,
          setPreviewData, setFile]
    exact ⟨h.1, h.2, Or.inl h⟩
  · intro p d
    exact ⟨rfl, rfl, Or.inl ⟨rfl, rfl⟩⟩

/-- C9 at the run that chooses `a.csv` and lets its read complete. -/
theorem C9_preview_invariant_witness :
    runEvents [.fileChange (some ⟨"a.csv", 2048, "text/csv"⟩),
        .readerLoad ⟨"a.csv", 2048, "text/csv"⟩] Page.init
      = some (readerOnload ⟨"a.csv", 2048, "text/csv"⟩
          (handleFileChange (some ⟨"a.csv", 2048, "text/csv"⟩) Page.init))
    ∧ (∀ f, (readerOnload ⟨"a.csv", 2048, "text/csv"⟩
          (handleFileChange (some ⟨"a.csv", 2048, "text/csv"⟩) Page.init)).file = some f →
        nameMatches f.name = true
        ∧ f ∈ chosenFiles [.fileChange (some ⟨"a.csv", 2048, "text/csv"⟩),
            .readerLoad ⟨"a.csv", 2048, "text/csv"⟩])
    ∧ Reachable (readerOnload ⟨"a.csv", 2048, "text/csv"⟩
        (handleFileChange (some ⟨"a.csv", 2048, "text/csv"⟩) Page.init)) := by
  have hrun : runEvents [.fileChange (some ⟨"a.csv", 2048, "text/csv"⟩),
        .readerLoad ⟨"a.csv", 2048, "text/csv"⟩] Page.init
      = some (readerOnload ⟨"a.csv", 2048, "text/csv"⟩
          (handleFileChange (some ⟨"a.csv", 2048, "text/csv"⟩) Page.init)) := by
    decide
  exact ⟨hrun, (C9_preview_invariant.2.1 _ _ hrun).1,
    (C9_preview_invariant.1 _).mpr ⟨_, hrun⟩⟩

/-- C9 as stated fails. Choosing `a.csv` on the initial page gives a reachable page with
`a.csv` selected and an empty preview, the read being still pending. Choosing `a.csv`,
then `b.xlsx`, with the read of `b.xlsx` completing before that of `a.csv`, gives a
reachable page with no pending read where `b.xlsx` is selected and the preview is that
of `a.csv`. Neither page is consistent. -/
theorem C9_counterexample :
    (Reachable (handleFileChange (some ⟨"a.csv", 2048, "text/csv"⟩) Page.init)
      ∧ (handleFileChange (some ⟨"a.csv", 2048, "text/csv"⟩) Page.init).file
          = some ⟨"a.csv", 2048, "text/csv"⟩
      ∧ (handleFileChange (some ⟨"a.csv", 2048, "text/csv"⟩) Page.init).previewData = []
      ∧ ¬ PreviewConsistent (handleFileChange (some ⟨"a.csv", 2048, "text/csv"⟩) Page.init))
    ∧ (Reachable (readerOnload ⟨"a.csv", 2048, "text/csv"⟩
          (readerOnload ⟨"b.xlsx", 1536, ""⟩
            (handleFileChange (some ⟨"b.xlsx", 1536, ""⟩)
              (handleFileChange (some ⟨"a.csv", 2048, "text/csv"⟩) Page.init))))
      ∧ (readerOnload ⟨"a.csv", 2048, "text/csv"⟩
          (readerOnload ⟨"b.xlsx", 1536, ""⟩
            (handleFileChange (some ⟨"b.xlsx", 1536, ""⟩)
              (handleFileChange (some ⟨"a.csv", 2048, "text/csv"⟩) Page.init)))).file
          = some ⟨"b.xlsx", 1536, ""⟩
      ∧ (readerOnload ⟨"a.csv", 2048, "text/csv"⟩
          (readerOnload ⟨"b.xlsx", 1536, ""⟩
            (handleFileChange (some ⟨"b.xlsx", 1536, ""⟩)
              (handleFileChange (some ⟨"a.csv", 2048, "text/csv"⟩) Page.init)))).previewData
          = [⟨"a.csv", "2.00 KB", "text/csv"⟩]
      ∧ (readerOnload ⟨"a.csv", 2048, "text/csv"⟩
          (readerOnload ⟨"b.xlsx", 1536, ""⟩
            (handleFileChange (some ⟨"b.xlsx", 1536, ""⟩)
              (handleFileChange (some ⟨"a.csv", 2048, "text/csv"⟩) Page.init)))).readers = [])
    ∧ ¬ (∀ p, Reachable p → PreviewConsistent p) := by
  have hr1 : Reachable (handleFileChange (some ⟨"a.csv", 2048, "text/csv"⟩) Page.init) :=
    .step .init (.fileChange _ _)
  have hn1 : ¬ PreviewConsistent
      (handleFileChange (some ⟨"a.csv", 2048, "text/csv"⟩) Page.init) := by
    rintro (⟨hf, _⟩ | ⟨f, e, _, he, _⟩)
    · exact absurd hf (by decide)
    · have hpd : (handleFileChange (some ⟨"a.csv", 2048, "text/csv"⟩) Page.init).previewData
          = [] := by decide
      rw [hpd] at he
      cases he
  refine ⟨⟨hr1, by decide, by decide, hn1⟩, ⟨?_, by decide, by decide, by decide⟩,
    fun hall => hn1 (hall _ hr1)⟩
  exact .step (.step (.step hr1 (.fileChange _ _)) (.readerLoad _ _ (by decide)))
    (.readerLoad _ _ (by decide))

/-! ## C12: the values of the upload progress -/

/-- The two cases of the interval callback. -/
theorem progressTick_uploadProgress (id : Nat) (p : Page) :
    (p.uploadProgress < 90 → (progressTick id p).uploadProgress = p.uploadProgress + 10)
    ∧ (90 ≤ p.uploadProgress → (progressTick id p).uploadProgress = 90) := by
  constructor
  · intro h
    have h2 : ¬ p.uploadProgress ≥ 90 := by omega
    simp [progressTick, h2, setUploadProgress]
  · intro h
    have h2 : p.uploadProgress ≥ 90 := h
    simp [progressTick, h2, setUploadProgress, clearInterval]

/-- After `k` ticks from progress 0 the progress is `min (10 * k) 90`. -/
theorem progressTick_iterate (id : Nat) (p : Page) (hp : p.uploadProgress = 0) (k : Nat) :
    ((progressTick id)^[k] p).uploadProgress = min (10 * k) 90 := by
  induction k with
  | zero => simpa using hp
  | succ n ih =>
    rw [Function.iterate_succ_apply']
    by_cases h : ((progressTick id)^[n] p).uploadProgress < 90
    · rw [(progressTick_uploadProgress id _).1 h]
      omega
    · rw [(progressTick_uploadProgress id _).2 (by omega)]
      omega

/-- What one event does to the progress: it keeps it, resets it to 0, is a tick, or is
the step of `handleSubmit` that receives a response and sets it to 100. -/
theorem Step.uploadProgress_cases {p q : Page} (hs : Step p q) :
    q.uploadProgress = p.uploadProgress ∨ q.uploadProgress = 0
    ∨ (∃ id, q = progressTick id p)
    ∨ (∃ id res, q = handleSubmitFetched id (.ok res) p ∧ q.uploadProgress = 100) := by
  cases hs with
  | mount => exact Or.inl rfl
  | fileChange c =>
    refine Or.inl ?_
    unfold handleFileChange; repeat (first | rfl | split)
  | drop c =>
    refine Or.inl ?_
    unfold handleDrop; repeat (first | rfl | split)
  | readerLoad f hf => exact Or.inl rfl
  | submit =>
    unfold handleSubmit
    split
    · exact Or.inl rfl
    · exact Or.inr (Or.inl rfl)
  | tick id hid => exact Or.inr (Or.inr (Or.inl ⟨id, rfl⟩))
  | submitFetched id r =>
    cases r with
    | error m => exact Or.inr (Or.inl rfl)
    | ok res => exact Or.inr (Or.inr (Or.inr ⟨id, res, rfl, rfl⟩))
  | submitParsed tyErr res =>
    exact Or.inr (Or.inl (handleSubmitParsed_intervals_progress tyErr res p).2)
  | testParse =>
    refine Or.inl ?_
    unfold handleTestParse; repeat (first | rfl | split)
  | testParseDone tyErr r =>
    refine Or.inl ?_
    unfold handleTestParseDone; repeat (first | rfl | split)
  | deleteAll confirmed =>
    refine Or.inl ?_
    unfold handleDeleteAll; repeat (first | rfl | split)
  | deleteAllDone r =>
    refine Or.inl ?_
    unfold handleDeleteAllDone; repeat (first | rfl | split)
  | refresh => exact Or.inl rfl
  | refreshDone r =>
    refine Or.inl ?_
    unfold fetchUploadHistoryDone; repeat (first | rfl | split)
  | timeout t _ _ => exact Or.inl rfl
  | dismiss => exact Or.inl rfl
  | advance dt => exact Or.inl rfl

/-- In every reachable page the progress is a multiple of 10 and at most 100. -/
theorem Reachable.uploadProgress_bounds {p : Page} (h : Reachable p) :
    p.uploadProgress % 10 = 0 ∧ p.uploadProgress ≤ 100 := by
  induction h with
  | init => exact ⟨rfl, by decide⟩
  | @step a b _ hs ih =>
    rcases hs.uploadProgress_cases with h1 | h1 | ⟨id, rfl⟩ | ⟨_, _, _, h1⟩
    · rw [h1]; exact ih
    · rw [h1]; exact ⟨rfl, by decide⟩
    · by_cases h90 : a.uploadProgress < 90
      · rw [(progressTick_uploadProgress id a).1 h90]
        omega
      · rw [(progressTick_uploadProgress id a).2 (by omega)]
        exact ⟨rfl, by decide⟩
    · rw [h1]; exact ⟨rfl, by decide⟩

/-- While the progress is below 90 a tick leaves the live intervals as they are, so the
first nine ticks after progress 0 do. -/
theorem progressTick_iterate_intervals (id : Nat) (p : Page) (hp : p.uploadProgress = 0)
    (k : Nat) (hk : k ≤ 9) : ((progressTick id)^[k] p).intervals = p.intervals := by
  induction k with
  | zero => rfl
  | succ n ih =>
    rw [Function.iterate_succ_apply']
    have hn : ((progressTick id)^[n] p).uploadProgress = min (10 * n) 90 :=
      progressTick_iterate id p hp n
    have h2 : ¬ ((progressTick id)^[n] p).uploadProgress ≥ 90 := by omega
    rw [← ih (by omega)]
    simp [progressTick, h2, setUploadProgress]

/-- C12. In every reachable page the upload progress is one of 0, 10, 20, ..., 90, 100.
The interval callback maps a value below 90 to that value plus 10 and a value of 90 or
more to 90; so after `k` ticks from progress 0, in particular after `k` ticks following
the start of a submission with a selected file, the progress is `min (10 * k) 90`, the
interval of that submission being live for each of its first ten ticks. An event that
leaves the progress at 100 either found it at 100 or is the step of `handleSubmit` that
receives a response. -/
theorem C12_progress_values :
    (∀ p, Reachable p → p.uploadProgress ∈ [0, 10, 20, 30, 40, 50, 60, 70, 80, 90, 100])
    ∧ (∀ (id : Nat) (p : Page),
        (p.uploadProgress < 90 → (progressTick id p).uploadProgress = p.uploadProgress + 10)
        ∧ (90 ≤ p.uploadProgress → (progressTick id p).uploadProgress = 90))
    ∧ (∀ (id : Nat) (p : Page) (k : Nat), p.uploadProgress = 0 →
        ((progressTick id)^[k] p).uploadProgress = min (10 * k) 90)
    ∧ (∀ (p : Page) (f : File) (k : Nat), p.file = some f →
        ((progressTick p.nextInterval)^[k] (handleSubmit p)).uploadProgress = min (10 * k) 90
        ∧ (k ≤ 9 →
            p.nextInterval ∈ ((progressTick p.nextInterval)^[k] (handleSubmit p)).intervals))
    ∧ (∀ p q, Step p q → q.uploadProgress = 100 →
        p.uploadProgress = 100 ∨ ∃ id res, q = handleSubmitFetched id (.ok res) p) := by
  refine ⟨?_, progressTick_uploadProgress, fun id p k hp => progressTick_iterate id p hp k,
    ?_, ?_⟩
  · intro p hp
    obtain ⟨h1, h2⟩ := hp.uploadProgress_bounds
    simp only [List.mem_cons, List.mem_singleton, List.not_mem_nil, or_false]
    omega
  · intro p f k hf
    have h0 : (handleSubmit p).uploadProgress = 0 := by simp [handleSubmit, hf, fetch,
      setInterval, setUploadProgress]
    refine ⟨progressTick_iterate _ _ h0 k, fun hk => ?_⟩
    rw [progressTick_iterate_intervals _ _ h0 k hk]
    simp [handleSubmit, hf, fetch, setInterval, setUploadProgress, setUploading]
  · intro p q hs hq
    rcases hs.uploadProgress_cases with h1 | h1 | ⟨id, rfl⟩ | ⟨id, res, h1, _⟩
    · exact Or.inl (h1 ▸ hq)
    · rw [h1] at hq; cases hq
    · exfalso
      by_cases h90 : p.uploadProgress < 90
      · rw [(progressTick_uploadProgress id p).1 h90] at hq
        omega
      · rw [(progressTick_uploadProgress id p).2 (by omega)] at hq
        cases hq
    · exact Or.inr ⟨id, res, h1⟩

/-- C12 at the page reached from the initial one by choosing `listings.csv`, submitting,
and three ticks of the interval: the progress is 30. -/
theorem C12_progress_values_witness :
    Reachable (progressTick 0 (progressTick 0 (progressTick 0
      (handleSubmit (handleFileChange (some ⟨"listings.csv", 1536, "text/csv"⟩) Page.init)))))
    ∧ (progressTick 0 (progressTick 0 (progressTick 0
        (handleSubmit
          (handleFileChange (some ⟨"listings.csv", 1536, "text/csv"⟩) Page.init))))).uploadProgress
        = 30
    ∧ (progressTick 0 (progressTick 0 (progressTick 0
        (handleSubmit
          (handleFileChange (some ⟨"listings.csv", 1536, "text/csv"⟩) Page.init))))).uploadProgress
        ∈ [0, 10, 20, 30, 40, 50, 60, 70, 80, 90, 100] := by
  have h1 : Reachable (handleFileChange (some ⟨"listings.csv", 1536, "text/csv"⟩) Page.init) :=
    .step .init (.fileChange _ _)
  have h2 := Reachable.step h1 (.submit _)
  have h3 := Reachable.step h2 (.tick _ 0 (by decide))
  have h4 := Reachable.step h3 (.tick _ 0 (by decide))
  have h5 := Reachable.step h4 (.tick _ 0 (by decide))
  refine ⟨h5, ?_, C12_progress_values.1 _ h5⟩
  exact (C12_progress_values.2.2.1 0
    (handleSubmit (handleFileChange (some ⟨"listings.csv", 1536, "text/csv"⟩) Page.init))
    3 (by decide))

/-! ## C11: the life of a message -/

/-- An idle event is time passing, a due timeout firing, or a step that leaves message,
pending timeouts and clock as they are. -/
theorem Idle.cases_message {p q : Page} (h : Idle p q) :
    (∃ dt, q = AdminDirectoryUpload.advance dt p)
    ∨ (∃ t, p.timeouts.head? = some t ∧ t ≤ p.now ∧ q = timeoutFires p)
    ∨ (q.message = p.message ∧ q.timeouts = p.timeouts ∧ q.now = p.now) := by
  cases h with
  | advance dt => exact Or.inl ⟨dt, rfl⟩
  | timeout t h1 h2 => exact Or.inr (Or.inl ⟨t, h1, h2, rfl⟩)
  | fileChange f hm => exact Or.inr (Or.inr (by simp [handleFileChange, hm, previewFile, setFile]))
  | drop f hm => exact Or.inr (Or.inr (by simp [handleDrop, hm, previewFile, setFile]))
  | readerLoad f hf => exact Or.inr (Or.inr ⟨rfl, rfl, rfl⟩)
  | submit f hf =>
    exact Or.inr (Or.inr (by
      simp [handleSubmit, hf, fetch, setInterval, setUploadProgress, setUploading]))
  | tick id hid =>
    refine Or.inr (Or.inr ⟨?_, ?_, ?_⟩) <;> (unfold progressTick; split <;> rfl)
  | submitFetched id res => exact Or.inr (Or.inr ⟨rfl, rfl, rfl⟩)
  | testParse f hf => exact Or.inr (Or.inr (by simp [handleTestParse, hf, fetch]))
  | deleteAll confirmed =>
    refine Or.inr (Or.inr ⟨?_, ?_, ?_⟩) <;> (unfold handleDeleteAll; split <;> rfl)
  | refresh => exact Or.inr (Or.inr ⟨rfl, rfl, rfl⟩)
  | refreshDone r =>
    refine Or.inr (Or.inr ⟨?_, ?_, ?_⟩) <;>
      (unfold fetchUploadHistoryDone; repeat (first | rfl | split))

/-- After a `showMessage` call at time `t0` with no other timeout pending, along idle
events: either its timeout is the only pending one and the message stands, or no timeout
is pending, the message is empty and the time is at least `t0 + 5000`. -/
theorem Idle.message_window {m : Message} {t0 : Nat} {p q : Page}
    (h : Relation.ReflTransGen Idle p q)
    (hp : p.timeouts = [t0 + 5000] ∧ p.message = m) :
    (q.timeouts = [t0 + 5000] ∧ q.message = m)
    ∨ (q.timeouts = [] ∧ q.message = noMessage ∧ t0 + 5000 ≤ q.now) := by
  induction h with
  | refl => exact Or.inl hp
  | @tail a b _ hab ih =>
    rcases hab.cases_message with ⟨dt, rfl⟩ | ⟨t, h1, h2, rfl⟩ | ⟨h1, h2, h3⟩
    · rcases ih with ih | ⟨i1, i2, i3⟩
      · exact Or.inl ih
      · exact Or.inr ⟨i1, i2, by simp only [AdminDirectoryUpload.advance]; omega⟩
    · rcases ih with ⟨i1, _⟩ | ⟨i1, _, _⟩
      · rw [i1] at h1
        simp only [List.head?_cons, Option.some.injEq] at h1
        refine Or.inr ⟨by simp [timeoutFires, clearMessage, setMessage, i1], rfl, ?_⟩
        simp only [timeoutFires, clearMessage, setMessage]
        omega
      · rw [i1] at h1
        cases h1
    · rw [h1, h2, h3]
      exact ih

/-- After a `showMessage` call that leaves the pending timeouts `ts`, the oldest due at
`d`, along idle events: either no timeout has fired and the message stands, or one has
fired, the message is empty and the time is at least `d`. -/
theorem Idle.message_fate {m : Message} {ts : List Nat} {d : Nat} {p q : Page}
    (h : Relation.ReflTransGen Idle p q)
    (hp : p.timeouts = ts ∧ p.message = m) (hd : ts.head? = some d) :
    (q.timeouts = ts ∧ q.message = m)
    ∨ (q.message = noMessage ∧ q.timeouts.length < ts.length ∧ d ≤ q.now) := by
  induction h with
  | refl => exact Or.inl hp
  | @tail a b _ hab ih =>
    rcases hab.cases_message with ⟨dt, rfl⟩ | ⟨t, h1, h2, rfl⟩ | ⟨h1, h2, h3⟩
    · rcases ih with ih | ⟨i1, i2, i3⟩
      · exact Or.inl ih
      · exact Or.inr ⟨i1, i2, by simp only [AdminDirectoryUpload.advance]; omega⟩
    · rcases ih with ⟨i1, _⟩ | ⟨_, i2, i3⟩
      · rw [i1, hd] at h1
        simp only [Option.some.injEq] at h1
        refine Or.inr ⟨rfl, ?_, ?_⟩
        · cases ts with
          | nil => cases hd
          | cons x xs => simp [timeoutFires, clearMessage, setMessage, i1]
        · simp only [timeoutFires, clearMessage, setMessage]
          omega
      · refine Or.inr ⟨rfl, ?_, i3⟩
        have : (timeoutFires a).timeouts.length ≤ a.timeouts.length := by
          simp [timeoutFires, clearMessage, setMessage]
        omega
    · rw [h1, h2, h3]
      exact ih

/-- How one event changes the pending timeouts and the clock: it keeps both, or appends
a timeout due 5000 ms from now, or removes the oldest timeout once it is due, or lets time
pass. -/
theorem Step.timeouts_cases {p q : Page} (hs : Step p q) :
    (q.timeouts = p.timeouts ∧ q.now = p.now)
    ∨ (q.timeouts = p.timeouts ++ [p.now + 5000] ∧ q.now = p.now)
    ∨ (q.timeouts = p.timeouts.tail ∧ q.now = p.now)
    ∨ (q.timeouts = p.timeouts ∧ p.now ≤ q.now) := by
  cases hs with
  | mount => exact Or.inl ⟨rfl, rfl⟩
  | fileChange c =>
    unfold handleFileChange
    repeat (first | exact Or.inl ⟨rfl, rfl⟩ | exact Or.inr (Or.inl ⟨rfl, rfl⟩) | split)
  | drop c =>
    unfold handleDrop
    repeat (first | exact Or.inl ⟨rfl, rfl⟩ | exact Or.inr (Or.inl ⟨rfl, rfl⟩) | split)
  | readerLoad f hf => exact Or.inl ⟨rfl, rfl⟩
  | submit =>
    unfold handleSubmit
    repeat (first | exact Or.inl ⟨rfl, rfl⟩ | exact Or.inr (Or.inl ⟨rfl, rfl⟩) | split)
  | tick id hid =>
    unfold progressTick
    repeat (first | exact Or.inl ⟨rfl, rfl⟩ | exact Or.inr (Or.inl ⟨rfl, rfl⟩) | split)
  | submitFetched id r =>
    unfold handleSubmitFetched
    repeat (first | exact Or.inl ⟨rfl, rfl⟩ | exact Or.inr (Or.inl ⟨rfl, rfl⟩) | split)
  | submitParsed tyErr res =>
    refine Or.inr (Or.inl ?_)
    obtain ⟨ok, json⟩ := res
    cases ok <;> rcases json with m | (_ | ⟨e, c, _ | es⟩) <;>
      simp [handleSubmitParsed, submitFinally_submitCatch, setPreviewData, setFile]
    by_cases h : es.length > 0 <;>
      simp [h, submitFinally, setUploadProgress, setUploading, alert,
        fetchUploadHistory, fetch, setLoadingHistory, showMessage, setTimeout, setMessage]
  | testParse =>
    unfold handleTestParse
    repeat (first | exact Or.inl ⟨rfl, rfl⟩ | exact Or.inr (Or.inl ⟨rfl, rfl⟩) | split)
  | testParseDone tyErr r =>
    unfold handleTestParseDone
    repeat (first | exact Or.inl ⟨rfl, rfl⟩ | exact Or.inr (Or.inl ⟨rfl, rfl⟩) | split)
  | deleteAll confirmed =>
    unfold handleDeleteAll
    repeat (first | exact Or.inl ⟨rfl, rfl⟩ | exact Or.inr (Or.inl ⟨rfl, rfl⟩) | split)
  | deleteAllDone r =>
    unfold handleDeleteAllDone
    repeat (first | exact Or.inl ⟨rfl, rfl⟩ | exact Or.inr (Or.inl ⟨rfl, rfl⟩) | split)
  | refresh => exact Or.inl ⟨rfl, rfl⟩
  | refreshDone r =>
    unfold fetchUploadHistoryDone
    repeat (first | exact Or.inl ⟨rfl, rfl⟩ | exact Or.inr (Or.inl ⟨rfl, rfl⟩) | split)
  | timeout t _ _ => exact Or.inr (Or.inr (Or.inl ⟨rfl, rfl⟩))
  | dismiss => exact Or.inl ⟨rfl, rfl⟩
  | advance dt => exact Or.inr (Or.inr (Or.inr ⟨rfl, Nat.le_add_right _ _⟩))

/-- In every reachable page the pending timeouts are listed by due time, oldest first,
and none is due later than 5000 ms from now. -/
theorem Reachable.timeouts_sorted {p : Page} (h : Reachable p) :
    p.timeouts.Pairwise (fun a b => a ≤ b) ∧ ∀ d ∈ p.timeouts, d ≤ p.now + 5000 := by
  induction h with
  | init => exact ⟨by simp [Page.init], by simp [Page.init]⟩
  | @step a b _ hs ih =>
    obtain ⟨i1, i2⟩ := ih
    rcases hs.timeouts_cases with ⟨h1, h2⟩ | ⟨h1, h2⟩ | ⟨h1, h2⟩ | ⟨h1, h2⟩
    · rw [h1, h2]; exact ⟨i1, i2⟩
    · rw [h1, h2]
      refine ⟨?_, ?_⟩
      · rw [List.pairwise_append]
        refine ⟨i1, List.pairwise_singleton _ _, ?_⟩
        intro x hx y hy
        rw [List.mem_singleton] at hy
        rw [hy]
        exact i2 x hx
      · intro d hd
        rw [List.mem_append, List.mem_singleton] at hd
        rcases hd with hd | hd
        · exact i2 d hd
        · omega
    · rw [h1, h2]
      exact ⟨i1.sublist (List.tail_sublist _), fun d hd => i2 d (List.mem_of_mem_tail hd)⟩
    · rw [h1]
      exact ⟨i1, fun d hd => by have := i2 d hd; omega⟩

/-- C11, as the code has it. Let `showMessage(text, type)` be called at time `t`, after
any history of earlier calls, and let only events follow in which the message is not
dismissed and `showMessage` is not called. The call sets the message and adds a timeout
due at `t + 5000` behind the pending ones; let `d` be the due time of the oldest pending
timeout. Then the message is `(text, type)` at every time before `d` and as long as no
timeout has fired; once a timeout has fired, which happens no earlier than `d`, the
message is empty, in particular once no timeout is pending, and at every time after `d`
at which no timeout is overdue. When no timeout of an earlier call is pending, `d` is
`t + 5000` and the message stands throughout the window of 5000 ms. On a reachable page
`d` is the earliest pending due time and is at most `t + 5000`, so the message is empty
at every time after `t + 5000` at which no timeout is overdue. Dismissing always leaves
the empty message, changes nothing when the message is already empty, and doing it twice
is the same as doing it once. -/
theorem C11_message_window (p : Page) (text type : String) :
    ((showMessage text type p).message = ⟨text, type⟩
      ∧ (showMessage text type p).timeouts = p.timeouts ++ [p.now + 5000])
    ∧ (∀ q d, Relation.ReflTransGen Idle (showMessage text type p) q →
        (p.timeouts ++ [p.now + 5000]).head? = some d →
        (q.now < d → q.message = ⟨text, type⟩)
        ∧ (q.timeouts = p.timeouts ++ [p.now + 5000] → q.message = ⟨text, type⟩)
        ∧ (q.timeouts ≠ p.timeouts ++ [p.now + 5000] → q.message = ⟨"", ""⟩ ∧ d ≤ q.now)
        ∧ (q.timeouts = [] → q.message = ⟨"", ""⟩)
        ∧ ((∀ x ∈ q.timeouts, q.now ≤ x) → d < q.now → q.message = ⟨"", ""⟩))
    ∧ (p.timeouts = [] → ∀ q, Relation.ReflTransGen Idle (showMessage text type p) q →
        (q.now < p.now + 5000 → q.message = ⟨text, type⟩)
        ∧ (q.timeouts = [] → q.message = ⟨"", ""⟩ ∧ p.now + 5000 ≤ q.now)
        ∧ ((∀ x ∈ q.timeouts, q.now ≤ x) → p.now + 5000 < q.now → q.message = ⟨"", ""⟩))
    ∧ (Reachable p →
        (∀ d, (p.timeouts ++ [p.now + 5000]).head? = some d →
          d ≤ p.now + 5000 ∧ ∀ x ∈ p.timeouts ++ [p.now + 5000], d ≤ x)
        ∧ (∀ q, Relation.ReflTransGen Idle (showMessage text type p) q →
          (∀ x ∈ q.timeouts, q.now ≤ x) → p.now + 5000 < q.now → q.message = ⟨"", ""⟩))
    ∧ (∀ s : Page, (clearMessage s).message = ⟨"", ""⟩
        ∧ clearMessage (clearMessage s) = clearMessage s
        ∧ (s.message = ⟨"", ""⟩ → clearMessage s = s)) := by
  have gen : ∀ q d, Relation.ReflTransGen Idle (showMessage text type p) q →
      (p.timeouts ++ [p.now + 5000]).head? = some d →
      (q.now < d → q.message = ⟨text, type⟩)
      ∧ (q.timeouts = p.timeouts ++ [p.now + 5000] → q.message = ⟨text, type⟩)
      ∧ (q.timeouts ≠ p.timeouts ++ [p.now + 5000] → q.message = ⟨"", ""⟩ ∧ d ≤ q.now)
      ∧ (q.timeouts = [] → q.message = ⟨"", ""⟩)
      ∧ ((∀ x ∈ q.timeouts, q.now ≤ x) → d < q.now → q.message = ⟨"", ""⟩) := by
    intro q d hq hd
    have h0 : (showMessage text type p).timeouts = p.timeouts ++ [p.now + 5000]
        ∧ (showMessage text type p).message = ⟨text, type⟩ := ⟨rfl, rfl⟩
    rcases Idle.message_fate hq h0 hd with ⟨h1, h2⟩ | ⟨h1, h2, h3⟩
    · refine ⟨fun _ => h2, fun _ => h2, fun h => absurd h1 h, fun h => ?_, fun hx hlt => ?_⟩
      · rw [h1] at h
        simp at h
      · have hmem : d ∈ q.timeouts := by
          rw [h1]
          exact List.mem_of_mem_head? hd
        have := hx d hmem
        omega
    · refine ⟨fun h => by omega, fun h => ?_, fun _ => ⟨h1, h3⟩, fun _ => h1, fun _ _ => h1⟩
      rw [h] at h2
      omega
  refine ⟨⟨rfl, rfl⟩, gen, ?_, ?_, ?_⟩
  · intro hp q hq
    have hd : (p.timeouts ++ [p.now + 5000]).head? = some (p.now + 5000) := by simp [hp]
    obtain ⟨g1, _, g3, g4, g5⟩ := gen q (p.now + 5000) hq hd
    refine ⟨g1, fun h => ⟨g4 h, ?_⟩, g5⟩
    exact (g3 (by rw [h, hp]; simp)).2
  · intro hr
    have hsorted : ∀ d, (p.timeouts ++ [p.now + 5000]).head? = some d →
        d ≤ p.now + 5000 ∧ ∀ x ∈ p.timeouts ++ [p.now + 5000], d ≤ x := ?_
    · refine ⟨hsorted, fun q hq hx hlt => ?_⟩
      cases hh : (p.timeouts ++ [p.now + 5000]).head? with
      | none => simp at hh
      | some d =>
        have hle := (hsorted d hh).1
        exact (gen q d hq hh).2.2.2.2 hx (by omega)
    intro d hd
    obtain ⟨i1, i2⟩ := hr.timeouts_sorted
    cases hts : p.timeouts with
    | nil =>
      rw [hts] at hd
      simp only [List.nil_append, List.head?_cons, Option.some.injEq] at hd
      subst hd
      simp
    | cons x xs =>
      rw [hts] at hd i1 i2
      simp only [List.cons_append, List.head?_cons, Option.some.injEq] at hd
      subst hd
      refine ⟨i2 _ (List.mem_cons_self _ _), ?_⟩
      intro y hy
      simp only [List.cons_append, List.mem_cons, List.mem_append, List.mem_singleton,
        List.not_mem_nil, or_false] at hy
      rcases hy with rfl | hy | rfl
      · exact le_refl _
      · exact (List.pairwise_cons.mp i1).1 y hy
      · exact i2 _ (List.mem_cons_self _ _)
  · intro s
    refine ⟨rfl, rfl, fun h => ?_⟩
    simp only [clearMessage, setMessage, noMessage]
    rw [← h]

/-- C11 on the initial page: the message `Failed to delete data` shown at time 0 stands
at time 4999 and is empty after its timeout fired at time 5000. A second message shown
at time 3000 stands at time 4999, before the timeout of the first call is due. -/
theorem C11_message_window_witness :
    (advance 4999 (showMessage "Failed to delete data" "error" Page.init)).message
      = ⟨"Failed to delete data", "error"⟩
    ∧ (timeoutFires
        (advance 5000 (showMessage "Failed to delete data" "error" Page.init))).message
      = ⟨"", ""⟩
    ∧ (advance 1999 (showMessage "Successfully deleted 7 listings and upload history" "success"
        (advance 3000 (showMessage "Failed to delete data" "error" Page.init)))).message
      = ⟨"Successfully deleted 7 listings and upload history", "success"⟩ := by
  have h := (C11_message_window Page.init "Failed to delete data" "error").2.2.1 rfl
  have r1 : Relation.ReflTransGen Idle (showMessage "Failed to delete data" "error" Page.init)
      (advance 4999 (showMessage "Failed to delete data" "error" Page.init)) :=
    .single (.advance _ _)
  have r2 : Relation.ReflTransGen Idle (showMessage "Failed to delete data" "error" Page.init)
      (advance 5000 (showMessage "Failed to delete data" "error" Page.init)) :=
    .single (.advance _ _)
  have r3 := Relation.ReflTransGen.tail r2 (.timeout _ 5000 (by decide) (by decide))
  have g := (C11_message_window
    (advance 3000 (showMessage "Failed to delete data" "error" Page.init))
    "Successfully deleted 7 listings and upload history" "success").2.1
    (advance 1999 (showMessage "Successfully deleted 7 listings and upload history" "success"
        (advance 3000 (showMessage "Failed to delete data" "error" Page.init))))
    5000 (.single (.advance _ _)) (by decide)
  exact ⟨(h _ r1).1 (by decide), ((h _ r3).2.1 (by decide)).1, g.1 (by decide)⟩

/-- C11 as stated fails. On the initial page `showMessage` is called at time 0 and again
at time 3000 with `Successfully deleted 7 listings and upload history`; nothing but time
passing and a timeout firing follows. At time 5000 the timeout of the first call fires
and the message is empty, 3000 ms before the window of the second call ends. -/
theorem C11_counterexample :
    (showMessage "Successfully deleted 7 listings and upload history" "success"
        (advance 3000 (showMessage "Failed to delete data" "error" Page.init))).now = 3000
    ∧ Relation.ReflTransGen Idle
        (showMessage "Successfully deleted 7 listings and upload history" "success"
          (advance 3000 (showMessage "Failed to delete data" "error" Page.init)))
        (timeoutFires (advance 2000
          (showMessage "Successfully deleted 7 listings and upload history" "success"
            (advance 3000 (showMessage "Failed to delete data" "error" Page.init)))))
    ∧ (timeoutFires (advance 2000
          (showMessage "Successfully deleted 7 listings and upload history" "success"
            (advance 3000 (showMessage "Failed to delete data" "error" Page.init))))).now
        = 5000
    ∧ (timeoutFires (advance 2000
          (showMessage "Successfully deleted 7 listings and upload history" "success"
            (advance 3000 (showMessage "Failed to delete data" "error" Page.init))))).message
        = ⟨"", ""⟩ := by
  refine ⟨by decide, ?_, by decide, by decide⟩
  exact .tail (.single (.advance _ _)) (.timeout _ 5000 (by decide) (by decide))

end AdminDirectoryUpload
